import Mathlib

/-!
# RFID audio player: playback orchestration

Shallow embedding of the control logic of
`rfid_pipeline_http_select_decoder/main/play_http_select_decoder_example.c`:
the card mapping table (`rfid_mappings`, `compare_uid`, `find_url_for_uid`),
the two audio control functions (`stop_current_audio`, `start_audio_for_url`),
the card handler (`on_picc_state_changed`) and the status branches of the main
event loop of `app_main`.

The global variables of the C file become the fields of `State`.  Calls into
the audio framework are recorded, with their return values, in `State.log`;
the return value of the n-th recorded entry is supplied by an arbitrary
function `Oracle`, so that every combination of results is covered.

The enumerations of the audio framework that the main loop compares for
equality are inductive types with a constructor for every other value; the two
card states of the reader component, which the handler also compares by
order, are integer parameters (`PiccStates`).
-/

namespace Cubbie

/-! ## Error codes -/

/-- C type `esp_err_t` (a signed integer). -/
abbrev esp_err_t := Int

/-- Value of `ESP_OK` in the ESP-IDF header `esp_err.h`. -/
def ESP_OK : esp_err_t := 0

/-- Value of `ESP_FAIL` in the ESP-IDF header `esp_err.h`. -/
def ESP_FAIL : esp_err_t := -1

/-- Value of `ESP_ERR_INVALID_ARG` in the ESP-IDF header `esp_err.h`. -/
def ESP_ERR_INVALID_ARG : esp_err_t := 0x102

/-! ## Card mapping table -/

/-- C struct `rfid_audio_mapping_t`: `uid` is the 10-byte array, zero padded
as a C initialiser pads it. -/
structure rfid_audio_mapping_t where
  uid : List Nat
  uid_length : Nat
  url : String
  name : String
  deriving DecidableEq, Repr

/-- The table `rfid_mappings`, in source order. -/
def rfid_mappings : List rfid_audio_mapping_t :=
  [ { uid := [0x04, 0x5F, 0xAC, 0xCA, 0x97, 0x69, 0x81, 0, 0, 0],
      uid_length := 7,
      url := "http://littlecubbie.duckdns.org/uploads/LC_intro.mp3",
      name := "LC_intro" },
    { uid := [0x73, 0x51, 0xCE, 0x0D, 0, 0, 0, 0, 0, 0],
      uid_length := 4,
      url := "http://littlecubbie.duckdns.org/uploads/Krishna_intro.mp3",
      name := "Krishna_intro" },
    { uid := [0x43, 0x86, 0x49, 0x10, 0, 0, 0, 0, 0, 0],
      uid_length := 4,
      url := "http://littlecubbie.duckdns.org/uploads/Alex_intro.mp3",
      name := "Alex_intro" } ]

/-- Struct `rc522_picc_uid_t` of the reader component: a byte array and the
number of bytes of it that are in use. -/
structure rc522_picc_uid_t where
  value : List Nat
  length : Nat
  deriving DecidableEq, Repr

/-- Array read `a[i]`; the table arrays and the uid array hold 10 bytes. -/
def byteAt (a : List Nat) (i : Nat) : Nat := a.getD i 0

/-- The `for` loop of `compare_uid`, started at index `i` with `remaining`
iterations to go: false at the first differing byte, true when it runs out. -/
def compare_uid_loop (uid1 : rc522_picc_uid_t) (uid2 : List Nat) : Nat → Nat → Bool
  | 0, _ => true
  | remaining + 1, i =>
    if byteAt uid1.value i ≠ byteAt uid2 i then false
    else compare_uid_loop uid1 uid2 remaining (i + 1)

/-- Function `compare_uid(uid1, uid2, length)`. -/
def compare_uid (uid1 : rc522_picc_uid_t) (uid2 : List Nat) (length : Nat) : Bool :=
  if uid1.length ≠ length then false
  else compare_uid_loop uid1 uid2 length 0

/-- The `for` loop of `find_url_for_uid` over the entries still to visit:
returns the url of the first entry that `compare_uid` accepts, `none` (NULL)
when the entries run out. -/
def find_url_loop (uid : rc522_picc_uid_t) : List rfid_audio_mapping_t → Option String
  | [] => none
  | m :: rest =>
    if compare_uid uid m.uid m.uid_length then some m.url
    else find_url_loop uid rest

/-- Function `find_url_for_uid(uid)`. -/
def find_url_for_uid (uid : rc522_picc_uid_t) : Option String :=
  find_url_loop uid rfid_mappings

/-! ## Audio control -/

/-- Calls into the audio framework made by the controller. -/
inductive PipelineCall where
  | audio_pipeline_stop
  | audio_pipeline_wait_for_stop
  | audio_pipeline_reset_ringbuffer
  | audio_element_set_uri (uri : String)
  | audio_pipeline_run
  | i2s_stream_set_clk
  deriving DecidableEq, Repr

/-- One entry of the record of what the controller did: a framework call with
the value it returned, or one of the two places of the main loop that clear
the playback state (the log lines "Audio playback finished" and "HTTP stream
error"). -/
inductive LogEntry where
  | call (c : PipelineCall) (ret : esp_err_t)
  | playback_finished
  | http_stream_error
  deriving DecidableEq, Repr

/-- The global variables of the C file that the control logic reads or writes:
`pipeline` and `http_stream_reader` record whether the handle is non-NULL,
`current_playing_url` is `none` for NULL. `log` is the record of calls. -/
structure State where
  pipeline : Bool
  http_stream_reader : Bool
  audio_playing : Bool
  current_playing_url : Option String
  log : List LogEntry
  deriving DecidableEq, Repr

/-- The return value of every framework call: the entry recorded at position
`n` of the log returns `o n`. -/
abbrev Oracle := Nat → esp_err_t

/-- The oracle under which every call succeeds. -/
def allOk : Oracle := fun _ => ESP_OK

/-- Perform the framework call `c`: record it with its result. -/
def invoke (o : Oracle) (c : PipelineCall) (s : State) : esp_err_t × State :=
  (o s.log.length, { s with log := s.log ++ [LogEntry.call c (o s.log.length)] })

/-- Function `is_audio_playing`. -/
def is_audio_playing (s : State) : Bool := s.audio_playing

/-- Function `stop_current_audio`. -/
def stop_current_audio (o : Oracle) (s : State) : esp_err_t × State :=
  if !s.audio_playing || !s.pipeline then (ESP_OK, s)
  else
    let r1 := invoke o PipelineCall.audio_pipeline_stop s
    if r1.1 ≠ ESP_OK then (r1.1, r1.2)
    else
      let r2 := invoke o PipelineCall.audio_pipeline_wait_for_stop r1.2
      if r2.1 ≠ ESP_OK then (r2.1, r2.2)
      else
        let r3 := invoke o PipelineCall.audio_pipeline_reset_ringbuffer r2.2
        (ESP_OK, { r3.2 with audio_playing := false, current_playing_url := none })

/-- Function `start_audio_for_url`; `url = none` is the NULL pointer. -/
def start_audio_for_url (o : Oracle) (url : Option String) (s : State) : esp_err_t × State :=
  match url with
  | none => (ESP_ERR_INVALID_ARG, s)
  | some u =>
    if !s.pipeline || !s.http_stream_reader then (ESP_ERR_INVALID_ARG, s)
    else
      let r0 := if s.audio_playing then stop_current_audio o s else (ESP_OK, s)
      if r0.1 ≠ ESP_OK then (r0.1, r0.2)
      else
        let r1 := invoke o (PipelineCall.audio_element_set_uri u) r0.2
        if r1.1 ≠ ESP_OK then (r1.1, r1.2)
        else
          let r2 := invoke o PipelineCall.audio_pipeline_run r1.2
          if r2.1 ≠ ESP_OK then (r2.1, r2.2)
          else (ESP_OK, { r2.2 with audio_playing := true, current_playing_url := some u })

/-! ## Card handler -/

/-- The two enumerators of `rc522_picc_state_t` that the handler tests. The
header of the reader component is not part of the repository, so their values
are parameters; enumerators of one C enum that name different states differ. -/
structure PiccStates where
  RC522_PICC_STATE_IDLE : Int
  RC522_PICC_STATE_ACTIVE : Int
  distinct : RC522_PICC_STATE_IDLE ≠ RC522_PICC_STATE_ACTIVE

/-- Struct `rc522_picc_t`, the fields the handler reads. -/
structure rc522_picc_t where
  state : Int
  uid : rc522_picc_uid_t
  deriving DecidableEq, Repr

/-- Struct `rc522_picc_state_changed_event_t`. -/
structure rc522_picc_state_changed_event_t where
  picc : rc522_picc_t
  old_state : Int
  deriving DecidableEq, Repr

/-- Function `on_picc_state_changed`. -/
def on_picc_state_changed (K : PiccStates) (o : Oracle)
    (event : rc522_picc_state_changed_event_t) (s : State) : State :=
  if event.picc.state = K.RC522_PICC_STATE_ACTIVE then
    match find_url_for_uid event.picc.uid with
    | some url => (start_audio_for_url o (some url) s).2
    | none => s
  else if event.picc.state = K.RC522_PICC_STATE_IDLE
      ∧ event.old_state ≥ K.RC522_PICC_STATE_ACTIVE then
    (stop_current_audio o s).2
  else s

/-! ## Main loop -/

/-- Field `source_type` of a message: the audio element type the loop tests
for, or any other value. -/
inductive audio_element_type_t where
  | AUDIO_ELEMENT_TYPE_ELEMENT
  | other (v : Nat)
  deriving DecidableEq, Repr

/-- Field `source` of a message: one of the three element handles of the
pipeline (decoder, output, input), or any other pointer. -/
inductive msg_source_t where
  | selected_decoder
  | i2s_stream_writer
  | http_stream_reader
  | other (v : Nat)
  deriving DecidableEq, Repr

/-- Field `cmd` of a message. -/
inductive audio_element_msg_cmd_t where
  | AEL_MSG_CMD_REPORT_STATUS
  | AEL_MSG_CMD_REPORT_MUSIC_INFO
  | other (v : Nat)
  deriving DecidableEq, Repr

/-- Field `data` of a message, read as an `audio_element_status_t`. -/
inductive audio_element_status_t where
  | AEL_STATUS_ERROR_OPEN
  | AEL_STATUS_STATE_STOPPED
  | AEL_STATUS_STATE_FINISHED
  | other (v : Nat)
  deriving DecidableEq, Repr

/-- Struct `audio_event_iface_msg_t`, the fields the loop reads. -/
structure audio_event_iface_msg_t where
  cmd : audio_element_msg_cmd_t
  data : audio_element_status_t
  source : msg_source_t
  source_type : audio_element_type_t
  deriving DecidableEq, Repr

/-- One iteration of the `while (1)` loop of `app_main`: `ret` and `msg` are
what `audio_event_iface_listen` returned. In the music-info branch the read
`audio_element_getinfo` is not recorded and `i2s_stream_set_clk` is recorded
without its arguments; its return value is discarded, as in the source. -/
def main_loop_iteration (o : Oracle) (ret : esp_err_t) (msg : audio_event_iface_msg_t)
    (s : State) : State :=
  if ret = ESP_OK then
    if msg.source_type = audio_element_type_t.AUDIO_ELEMENT_TYPE_ELEMENT
        ∧ msg.source = msg_source_t.selected_decoder
        ∧ msg.cmd = audio_element_msg_cmd_t.AEL_MSG_CMD_REPORT_MUSIC_INFO then
      (invoke o PipelineCall.i2s_stream_set_clk s).2
    else if msg.source_type = audio_element_type_t.AUDIO_ELEMENT_TYPE_ELEMENT
        ∧ msg.source = msg_source_t.i2s_stream_writer
        ∧ msg.cmd = audio_element_msg_cmd_t.AEL_MSG_CMD_REPORT_STATUS
        ∧ (msg.data = audio_element_status_t.AEL_STATUS_STATE_STOPPED
            ∨ msg.data = audio_element_status_t.AEL_STATUS_STATE_FINISHED) then
      { s with audio_playing := false, current_playing_url := none,
               log := s.log ++ [LogEntry.playback_finished] }
    else if msg.source_type = audio_element_type_t.AUDIO_ELEMENT_TYPE_ELEMENT
        ∧ msg.source = msg_source_t.http_stream_reader
        ∧ msg.cmd = audio_element_msg_cmd_t.AEL_MSG_CMD_REPORT_STATUS
        ∧ msg.data = audio_element_status_t.AEL_STATUS_ERROR_OPEN then
      { s with audio_playing := false, current_playing_url := none,
               log := s.log ++ [LogEntry.http_stream_error] }
    else s
  else s

/-- What the controller handles: an invocation of the card handler, or one
iteration of the main loop. -/
inductive Event where
  | picc (event : rc522_picc_state_changed_event_t)
  | listen (ret : esp_err_t) (msg : audio_event_iface_msg_t)
  deriving DecidableEq, Repr

/-- Handle one event. -/
def handle (K : PiccStates) (o : Oracle) (s : State) : Event → State
  | Event.picc event => on_picc_state_changed K o event s
  | Event.listen ret msg => main_loop_iteration o ret msg s

/-- Handle a sequence of events one after another. -/
def run (K : PiccStates) (o : Oracle) (s : State) (events : List Event) : State :=
  events.foldl (handle K o) s

/-- The state when the main loop is entered: the initialisers of the globals
(`audio_playing = false`, `current_playing_url = NULL`), nothing recorded. -/
def initial_state (pipeline http_stream_reader : Bool) : State :=
  { pipeline := pipeline, http_stream_reader := http_stream_reader,
    audio_playing := false, current_playing_url := none, log := [] }

/-- Controller state `Idle`. -/
def State.isIdle (s : State) : Prop :=
  s.audio_playing = false ∧ s.current_playing_url = none

/-- Controller state `Playing(url)`. -/
def State.isPlaying (s : State) (url : String) : Prop :=
  s.audio_playing = true ∧ s.current_playing_url = some url

/-! ## Concrete inputs used in the examples -/

/-- Enumerator values for the examples (idle below active). -/
def piccStates : PiccStates :=
  { RC522_PICC_STATE_IDLE := 0, RC522_PICC_STATE_ACTIVE := 2, distinct := by decide }

/-- Card of the first table entry. -/
def uid_LC : rc522_picc_uid_t :=
  { value := [0x04, 0x5F, 0xAC, 0xCA, 0x97, 0x69, 0x81, 0, 0, 0], length := 7 }

/-- Card of the second table entry. -/
def uid_Krishna : rc522_picc_uid_t :=
  { value := [0x73, 0x51, 0xCE, 0x0D, 0, 0, 0, 0, 0, 0], length := 4 }

/-- A card that is in no table entry. -/
def uid_unknown : rc522_picc_uid_t :=
  { value := [0xDE, 0xAD, 0xBE, 0xEF, 0, 0, 0, 0, 0, 0], length := 4 }

/-- Card presented: the handler is called with picc state ACTIVE. -/
def presented (K : PiccStates) (uid : rc522_picc_uid_t) : rc522_picc_state_changed_event_t :=
  { picc := { state := K.RC522_PICC_STATE_ACTIVE, uid := uid },
    old_state := K.RC522_PICC_STATE_IDLE }

/-- Card removed: the handler is called with picc state IDLE, old state ACTIVE. -/
def removed (K : PiccStates) (uid : rc522_picc_uid_t) : rc522_picc_state_changed_event_t :=
  { picc := { state := K.RC522_PICC_STATE_IDLE, uid := uid },
    old_state := K.RC522_PICC_STATE_ACTIVE }

def url_LC : String := "http://littlecubbie.duckdns.org/uploads/LC_intro.mp3"

def url_Krishna : String := "http://littlecubbie.duckdns.org/uploads/Krishna_intro.mp3"

/-- Entry `m` of the table is the card `uid`: same length, and the same bytes
below that length. -/
def uidMatches (uid : rc522_picc_uid_t) (m : rfid_audio_mapping_t) : Prop :=
  m.uid_length = uid.length ∧ ∀ i, i < m.uid_length → byteAt uid.value i = byteAt m.uid i

/-- The framework calls of a log, without the main-loop markers. -/
def pipelineCalls (log : List LogEntry) : List (PipelineCall × esp_err_t) :=
  log.filterMap fun e =>
    match e with
    | LogEntry.call c r => some (c, r)
    | _ => none

/-- Number of `audio_pipeline_run` calls in a log, whatever they returned. -/
def runAttempts (log : List LogEntry) : Nat :=
  log.countP fun e =>
    match e with
    | LogEntry.call PipelineCall.audio_pipeline_run _ => true
    | _ => false

/-- A status message from a pipeline element: `cmd` is REPORT_STATUS and the
source is an audio element. -/
def statusMsg (source : msg_source_t) (data : audio_element_status_t) :
    audio_event_iface_msg_t :=
  { cmd := audio_element_msg_cmd_t.AEL_MSG_CMD_REPORT_STATUS, data := data,
    source := source, source_type := audio_element_type_t.AUDIO_ELEMENT_TYPE_ELEMENT }

/-- Oracle under which the call recorded at position `k` fails with `ESP_FAIL`
and every other call succeeds. -/
def failAt (k : Nat) : Oracle := fun n => if n = k then ESP_FAIL else ESP_OK

/-- The state `stop_current_audio` leaves when `audio_pipeline_stop` and
`audio_pipeline_wait_for_stop` both return `ESP_OK`. -/
def stoppedState (o : Oracle) (s : State) : State :=
  { s with audio_playing := false, current_playing_url := none,
           log := s.log ++ [LogEntry.call PipelineCall.audio_pipeline_stop ESP_OK,
              LogEntry.call PipelineCall.audio_pipeline_wait_for_stop ESP_OK,
              LogEntry.call PipelineCall.audio_pipeline_reset_ringbuffer
                (o (s.log.length + 2))] }

/-- The state after the first table card is presented at start-up and every
call succeeds: `Playing(url_LC)`, with `set_uri` and `run` recorded at
positions 0 and 1, so the next call is recorded at position 2. -/
def playing_LC : State :=
  run piccStates allOk (initial_state true true) [Event.picc (presented piccStates uid_LC)]

/-- The card event is Removed: picc state IDLE with the old state at least
ACTIVE. -/
def isRemoved (K : PiccStates) (e : rc522_picc_state_changed_event_t) : Prop :=
  e.picc.state = K.RC522_PICC_STATE_IDLE ∧ e.old_state ≥ K.RC522_PICC_STATE_ACTIVE

/-- The card event is Presented with a card that has a mapping. -/
def isPresentedKnown (K : PiccStates) (e : rc522_picc_state_changed_event_t) : Prop :=
  e.picc.state = K.RC522_PICC_STATE_ACTIVE ∧ find_url_for_uid e.picc.uid ≠ none

/-- The handles are created and the playback state is Idle or Playing. -/
def Ready (s : State) : Prop :=
  s.pipeline = true ∧ s.http_stream_reader = true
    ∧ (s.audio_playing = false → s.current_playing_url = none)

/-- What the claim about sequences of card events predicts, read from the
newest event backwards: the url of the last Presented event when that card has
a mapping and no Removed event comes after it (`some url`, for `Playing(url)`),
`none` (Idle) otherwise. -/
def claimedFinalUrl (K : PiccStates) :
    List rc522_picc_state_changed_event_t → Option String
  | [] => none
  | e :: older =>
    if e.picc.state = K.RC522_PICC_STATE_ACTIVE then find_url_for_uid e.picc.uid
    else if e.picc.state = K.RC522_PICC_STATE_IDLE
        ∧ e.old_state ≥ K.RC522_PICC_STATE_ACTIVE then none
    else claimedFinalUrl K older

/-- The entry is `audio_pipeline_stop` returning `ESP_OK`. -/
def isStopOk : LogEntry → Bool
  | LogEntry.call PipelineCall.audio_pipeline_stop r => decide (r = ESP_OK)
  | _ => false

/-- The entry is `audio_pipeline_wait_for_stop` returning `ESP_OK`. -/
def isWaitOk : LogEntry → Bool
  | LogEntry.call PipelineCall.audio_pipeline_wait_for_stop r => decide (r = ESP_OK)
  | _ => false

/-- The entry is an `audio_pipeline_run` call, whatever it returned. -/
def isRun : LogEntry → Bool
  | LogEntry.call PipelineCall.audio_pipeline_run _ => true
  | _ => false

/-- The entry is an `audio_pipeline_run` call that returned `ESP_OK`. -/
def isRunOk : LogEntry → Bool
  | LogEntry.call PipelineCall.audio_pipeline_run r => decide (r = ESP_OK)
  | _ => false

/-- The entry is one of the two main-loop places that clear the playback
state on a status message of the pipeline. -/
def isCleared : LogEntry → Bool
  | LogEntry.playback_finished => true
  | LogEntry.http_stream_error => true
  | _ => false

/-- The log starts with a successful `audio_pipeline_wait_for_stop`. -/
def startsWithWaitOk : List LogEntry → Bool
  | [] => false
  | e :: _ => isWaitOk e

/-- A completed stop occurs in the log: a successful `audio_pipeline_stop`
directly followed by a successful `audio_pipeline_wait_for_stop`. -/
def completedStopIn : List LogEntry → Bool
  | [] => false
  | e :: rest => (isStopOk e && startsWithWaitOk rest) || completedStopIn rest

/-- A status message of the pipeline cleared the playback state somewhere in
the log. -/
def stateClearedIn (log : List LogEntry) : Bool := log.any isCleared

/-- Bookkeeping for reading a log from the left: `clear` when no successful
`audio_pipeline_run` is outstanding, `armed` after a successful run that no
completed stop or status message has cancelled, `stopping` when in addition
the last entry was a successful `audio_pipeline_stop`. -/
inductive Guard where
  | clear
  | armed
  | stopping
  deriving DecidableEq, Repr

/-- Read one log entry; `none` when `audio_pipeline_run` is called while a
successful run is outstanding. -/
def guardStep (g : Guard) (e : LogEntry) : Option Guard :=
  match g with
  | Guard.clear => some (if isRunOk e then Guard.armed else Guard.clear)
  | Guard.armed =>
    if isCleared e then some Guard.clear
    else if isRun e then none
    else some (if isStopOk e then Guard.stopping else Guard.armed)
  | Guard.stopping =>
    if isCleared e then some Guard.clear
    else if isRun e then none
    else some (if isWaitOk e then Guard.clear
               else if isStopOk e then Guard.stopping else Guard.armed)

/-- Read a whole log, starting from `g`. -/
def guardScan (g : Guard) : List LogEntry → Option Guard
  | [] => some g
  | e :: rest =>
    match guardStep g e with
    | some g' => guardScan g' rest
    | none => none

/-- The record of a state reads without violation, and when a successful run
is outstanding the state has `audio_playing` set. -/
def Guarded (s : State) : Prop :=
  guardScan Guard.clear s.log = some Guard.clear
    ∨ (guardScan Guard.clear s.log = some Guard.armed ∧ s.audio_playing = true)

/-- The playback state is well defined: `audio_playing` is set exactly when
`current_playing_url` is not NULL. -/
def WellDefined (s : State) : Prop :=
  s.audio_playing = true ↔ s.current_playing_url ≠ none

/-- The control flow of `stop_current_audio` once more, returning for every
framework call it makes the value of `audio_playing` at the moment of the
call. -/
def stop_current_audio_moments (o : Oracle) (s : State) : List (PipelineCall × Bool) :=
  if !s.audio_playing || !s.pipeline then []
  else
    let r1 := invoke o PipelineCall.audio_pipeline_stop s
    (PipelineCall.audio_pipeline_stop, s.audio_playing) ::
      (if r1.1 ≠ ESP_OK then []
       else
        let r2 := invoke o PipelineCall.audio_pipeline_wait_for_stop r1.2
        (PipelineCall.audio_pipeline_wait_for_stop, r1.2.audio_playing) ::
          (if r2.1 ≠ ESP_OK then []
           else [(PipelineCall.audio_pipeline_reset_ringbuffer, r2.2.audio_playing)]))

/-- The control flow of `start_audio_for_url` once more, returning for every
framework call it makes (those of the stop included) the value of
`audio_playing` at the moment of the call. -/
def start_audio_for_url_moments (o : Oracle) (url : Option String) (s : State) :
    List (PipelineCall × Bool) :=
  match url with
  | none => []
  | some u =>
    if !s.pipeline || !s.http_stream_reader then []
    else
      let r0 := if s.audio_playing then stop_current_audio o s else (ESP_OK, s)
      (if s.audio_playing then stop_current_audio_moments o s else []) ++
        (if r0.1 ≠ ESP_OK then []
         else
          let r1 := invoke o (PipelineCall.audio_element_set_uri u) r0.2
          (PipelineCall.audio_element_set_uri u, r0.2.audio_playing) ::
            (if r1.1 ≠ ESP_OK then []
             else [(PipelineCall.audio_pipeline_run, r1.2.audio_playing)]))

/-- The call is one of the two start commands. -/
def isStartCommand : PipelineCall → Bool
  | PipelineCall.audio_element_set_uri _ => true
  | PipelineCall.audio_pipeline_run => true
  | _ => false

/-! ## The mapping table -/

theorem compare_uid_loop_iff (uid1 : rc522_picc_uid_t) (uid2 : List Nat) (n i : Nat) :
    compare_uid_loop uid1 uid2 n i = true
      ↔ ∀ k, k < n → byteAt uid1.value (i + k) = byteAt uid2 (i + k) := by
  induction n generalizing i with
  | zero => simp [compare_uid_loop]
  | succ n ih =>
    simp only [compare_uid_loop]
    by_cases h : byteAt uid1.value i = byteAt uid2 i
    · simp only [ne_eq, h, not_true_eq_false, if_false, ih]
      constructor
      · intro hk k hlt
        cases k with
        | zero => simpa using h
        | succ k =>
          have := hk k (by omega)
          simpa [Nat.add_assoc, Nat.add_comm 1 k] using this
      · intro hk k hlt
        have := hk (k + 1) (by omega)
        simpa [Nat.add_assoc, Nat.add_comm 1 k] using this
    · simp only [ne_eq, h, not_false_eq_true, if_true]
      constructor
      · intro hf; cases hf
      · intro hk
        exact absurd (by simpa using hk 0 (by omega)) h

theorem compare_uid_iff (uid1 : rc522_picc_uid_t) (uid2 : List Nat) (length : Nat) :
    compare_uid uid1 uid2 length = true
      ↔ uid1.length = length ∧ ∀ i, i < length → byteAt uid1.value i = byteAt uid2 i := by
  unfold compare_uid
  by_cases h : uid1.length = length
  · simp [h, compare_uid_loop_iff]
  · simp [h]

theorem compare_uid_matches (uid : rc522_picc_uid_t) (m : rfid_audio_mapping_t) :
    compare_uid uid m.uid m.uid_length = true ↔ uidMatches uid m := by
  rw [compare_uid_iff]
  unfold uidMatches
  constructor
  · rintro ⟨h1, h2⟩; exact ⟨h1.symm, h2⟩
  · rintro ⟨h1, h2⟩; exact ⟨h1.symm, h2⟩

theorem find_url_loop_some (uid : rc522_picc_uid_t) (table : List rfid_audio_mapping_t)
    (url : String) :
    find_url_loop uid table = some url
      ↔ ∃ i m, table.get? i = some m ∧ uidMatches uid m ∧ m.url = url
          ∧ ∀ j m', j < i → table.get? j = some m' → ¬ uidMatches uid m' := by
  induction table with
  | nil => simp [find_url_loop]
  | cons m rest ih =>
    simp only [find_url_loop]
    by_cases hm : compare_uid uid m.uid m.uid_length = true
    · have hm' := (compare_uid_matches uid m).1 hm
      simp only [hm, if_true, Option.some.injEq]
      constructor
      · intro h
        exact ⟨0, m, rfl, hm', h, fun j m' hj => absurd hj (Nat.not_lt_zero j)⟩
      · rintro ⟨i, m1, hget, _, hurl, hfirst⟩
        cases i with
        | zero =>
          simp only [List.get?_cons_zero, Option.some.injEq] at hget
          rw [hget]; exact hurl
        | succ i => exact absurd hm' (hfirst 0 m (Nat.succ_pos i) rfl)
    · have hm' : ¬ uidMatches uid m := fun h => hm ((compare_uid_matches uid m).2 h)
      simp only [hm, if_false, Bool.false_eq_true, ih]
      constructor
      · rintro ⟨i, m1, hget, hmat, hurl, hfirst⟩
        refine ⟨i + 1, m1, by simpa using hget, hmat, hurl, ?_⟩
        intro j m2 hj hget2
        cases j with
        | zero =>
          simp only [List.get?_cons_zero, Option.some.injEq] at hget2
          rw [← hget2]; exact hm'
        | succ j => exact hfirst j m2 (by omega) (by simpa using hget2)
      · rintro ⟨i, m1, hget, hmat, hurl, hfirst⟩
        cases i with
        | zero =>
          simp only [List.get?_cons_zero, Option.some.injEq] at hget
          rw [← hget] at hmat; exact absurd hmat hm'
        | succ i =>
          refine ⟨i, m1, by simpa using hget, hmat, hurl, ?_⟩
          intro j m2 hj hget2
          exact hfirst (j + 1) m2 (by omega) (by simpa using hget2)

theorem find_url_loop_none (uid : rc522_picc_uid_t) (table : List rfid_audio_mapping_t) :
    find_url_loop uid table = none ↔ ∀ m, m ∈ table → ¬ uidMatches uid m := by
  induction table with
  | nil => simp [find_url_loop]
  | cons m rest ih =>
    simp only [find_url_loop]
    by_cases hm : compare_uid uid m.uid m.uid_length = true
    · have hm' := (compare_uid_matches uid m).1 hm
      simp only [hm, if_true]
      constructor
      · intro h; cases h
      · intro h; exact absurd hm' (h m (List.mem_cons_self m rest))
    · have hm' : ¬ uidMatches uid m := fun h => hm ((compare_uid_matches uid m).2 h)
      simp only [hm, if_false, Bool.false_eq_true, ih, List.mem_cons]
      constructor
      · intro h x hx
        rcases hx with hx | hx
        · rw [hx]; exact hm'
        · exact h x hx
      · intro h x hx
        exact h x (Or.inr hx)

/-- Claim C4: `compare_uid` is true exactly when the lengths are equal and all
bytes below that length are equal; `find_url_for_uid` returns the url of the
first table entry, in table order, that is the card in this sense, and NULL
(`none`) exactly when no entry is; an entry whose length differs from the
card's (the card is a proper prefix or a proper extension) is not matched. -/
theorem C4_find_url_first_exact_match (uid : rc522_picc_uid_t) :
    (∀ (a : List Nat) (len : Nat),
        compare_uid uid a len = true
          ↔ uid.length = len ∧ ∀ i, i < len → byteAt uid.value i = byteAt a i)
    ∧ (∀ url, find_url_for_uid uid = some url
          ↔ ∃ i m, rfid_mappings.get? i = some m ∧ uidMatches uid m ∧ m.url = url
              ∧ ∀ j m', j < i → rfid_mappings.get? j = some m' → ¬ uidMatches uid m')
    ∧ (find_url_for_uid uid = none ↔ ∀ m, m ∈ rfid_mappings → ¬ uidMatches uid m)
    ∧ (∀ m, m ∈ rfid_mappings → uid.length ≠ m.uid_length
          → compare_uid uid m.uid m.uid_length = false) := by
  refine ⟨fun a len => compare_uid_iff uid a len, fun url => find_url_loop_some uid _ url,
    find_url_loop_none uid _, ?_⟩
  intro m _ hlen
  simp [compare_uid, hlen]

/-! ## Outcomes of the two audio control functions -/

theorem stop_noop (o : Oracle) (s : State) (h : s.audio_playing = false ∨ s.pipeline = false) :
    stop_current_audio o s = (ESP_OK, s) := by
  unfold stop_current_audio
  rcases h with h | h <;> simp [h]

theorem stop_fail_stop (o : Oracle) (s : State) (hp : s.audio_playing = true)
    (hq : s.pipeline = true) (h1 : o s.log.length ≠ ESP_OK) :
    stop_current_audio o s
      = (o s.log.length,
         { s with log := s.log ++ [LogEntry.call PipelineCall.audio_pipeline_stop
                                    (o s.log.length)] }) := by
  simp [stop_current_audio, hp, hq, invoke, h1]

theorem stop_fail_wait (o : Oracle) (s : State) (hp : s.audio_playing = true)
    (hq : s.pipeline = true) (h1 : o s.log.length = ESP_OK)
    (h2 : o (s.log.length + 1) ≠ ESP_OK) :
    stop_current_audio o s
      = (o (s.log.length + 1),
         { s with log := s.log ++ [LogEntry.call PipelineCall.audio_pipeline_stop ESP_OK,
              LogEntry.call PipelineCall.audio_pipeline_wait_for_stop
                (o (s.log.length + 1))] }) := by
  simp [stop_current_audio, hp, hq, invoke, h1, h2]

theorem stop_done (o : Oracle) (s : State) (hp : s.audio_playing = true)
    (hq : s.pipeline = true) (h1 : o s.log.length = ESP_OK)
    (h2 : o (s.log.length + 1) = ESP_OK) :
    stop_current_audio o s = (ESP_OK, stoppedState o s) := by
  simp [stop_current_audio, stoppedState, hp, hq, invoke, h1, h2]

theorem start_invalid (o : Oracle) (url : Option String) (s : State)
    (h : url = none ∨ s.pipeline = false ∨ s.http_stream_reader = false) :
    start_audio_for_url o url s = (ESP_ERR_INVALID_ARG, s) := by
  unfold start_audio_for_url
  cases url with
  | none => rfl
  | some u =>
    rcases h with h | h | h
    · cases h
    · simp [h]
    · simp [h]

theorem start_idle_fail_uri (o : Oracle) (u : String) (s : State)
    (hp : s.audio_playing = false) (hq : s.pipeline = true)
    (hr : s.http_stream_reader = true) (h1 : o s.log.length ≠ ESP_OK) :
    start_audio_for_url o (some u) s
      = (o s.log.length,
         { s with log := s.log ++ [LogEntry.call (PipelineCall.audio_element_set_uri u)
                                    (o s.log.length)] }) := by
  simp [start_audio_for_url, hp, hq, hr, invoke, h1]

theorem start_idle_fail_run (o : Oracle) (u : String) (s : State)
    (hp : s.audio_playing = false) (hq : s.pipeline = true)
    (hr : s.http_stream_reader = true) (h1 : o s.log.length = ESP_OK)
    (h2 : o (s.log.length + 1) ≠ ESP_OK) :
    start_audio_for_url o (some u) s
      = (o (s.log.length + 1),
         { s with log := s.log ++ [LogEntry.call (PipelineCall.audio_element_set_uri u) ESP_OK,
              LogEntry.call PipelineCall.audio_pipeline_run (o (s.log.length + 1))] }) := by
  simp [start_audio_for_url, hp, hq, hr, invoke, h1, h2]

theorem start_idle_done (o : Oracle) (u : String) (s : State)
    (hp : s.audio_playing = false) (hq : s.pipeline = true)
    (hr : s.http_stream_reader = true) (h1 : o s.log.length = ESP_OK)
    (h2 : o (s.log.length + 1) = ESP_OK) :
    start_audio_for_url o (some u) s
      = (ESP_OK,
         { s with audio_playing := true, current_playing_url := some u,
                  log := s.log ++ [LogEntry.call (PipelineCall.audio_element_set_uri u) ESP_OK,
              LogEntry.call PipelineCall.audio_pipeline_run ESP_OK] }) := by
  simp [start_audio_for_url, hp, hq, hr, invoke, h1, h2]

theorem start_playing_stop_failed (o : Oracle) (u : String) (s : State)
    (hp : s.audio_playing = true) (hq : s.pipeline = true)
    (hr : s.http_stream_reader = true) (h : (stop_current_audio o s).1 ≠ ESP_OK) :
    start_audio_for_url o (some u) s = stop_current_audio o s := by
  simp [start_audio_for_url, hp, hq, hr, h]

theorem start_playing_stop_done (o : Oracle) (u : String) (s : State)
    (hp : s.audio_playing = true) (hq : s.pipeline = true)
    (hr : s.http_stream_reader = true) (h1 : o s.log.length = ESP_OK)
    (h2 : o (s.log.length + 1) = ESP_OK) :
    start_audio_for_url o (some u) s = start_audio_for_url o (some u) (stoppedState o s) := by
  simp [start_audio_for_url, hp, hq, hr, stop_done o s hp hq h1 h2, stoppedState]

/-! ## Handling one card event -/

/-- Claim C2: with the pipeline and the HTTP reader created and every call
succeeding, presenting a card that maps to `url` ends in `Playing(url)`; from
Idle the calls issued are exactly `audio_element_set_uri(url)` then
`audio_pipeline_run`, with no stop call; from Playing they are exactly one
stop sequence (`audio_pipeline_stop`, `audio_pipeline_wait_for_stop`, then the
ring buffer reset) followed by that one start, so no set_uri/run precedes the
completed stop. The card 04 5F AC CA 97 69 81 maps to the LC_intro url. -/
theorem C2_presented_mapped_starts_once (K : PiccStates) (o : Oracle) (s : State)
    (event : rc522_picc_state_changed_event_t) (url : String)
    (hq : s.pipeline = true) (hr : s.http_stream_reader = true)
    (ho : ∀ n, o n = ESP_OK)
    (he : event.picc.state = K.RC522_PICC_STATE_ACTIVE)
    (hu : find_url_for_uid event.picc.uid = some url) :
    (on_picc_state_changed K o event s).isPlaying url
    ∧ (s.audio_playing = false →
        (on_picc_state_changed K o event s).log
          = s.log ++ [LogEntry.call (PipelineCall.audio_element_set_uri url) ESP_OK,
                      LogEntry.call PipelineCall.audio_pipeline_run ESP_OK])
    ∧ (s.audio_playing = true →
        (on_picc_state_changed K o event s).log
          = s.log ++ [LogEntry.call PipelineCall.audio_pipeline_stop ESP_OK,
                      LogEntry.call PipelineCall.audio_pipeline_wait_for_stop ESP_OK,
                      LogEntry.call PipelineCall.audio_pipeline_reset_ringbuffer ESP_OK,
                      LogEntry.call (PipelineCall.audio_element_set_uri url) ESP_OK,
                      LogEntry.call PipelineCall.audio_pipeline_run ESP_OK])
    ∧ find_url_for_uid { value := [0x04, 0x5F, 0xAC, 0xCA, 0x97, 0x69, 0x81, 0, 0, 0],
                         length := 7 }
        = some "http://littlecubbie.duckdns.org/uploads/LC_intro.mp3" := by
  have hstep : on_picc_state_changed K o event s = (start_audio_for_url o (some url) s).2 := by
    simp [on_picc_state_changed, he, hu]
  rw [hstep]
  rcases Bool.eq_false_or_eq_true s.audio_playing with hp | hp
  · rw [start_playing_stop_done o url s hp hq hr (ho _) (ho _),
      start_idle_done o url (stoppedState o s) rfl hq hr (ho _) (ho _)]
    refine ⟨⟨rfl, rfl⟩, ?_, ?_, by decide⟩
    · intro h; rw [hp] at h; cases h
    · intro _; simp [stoppedState, ho]
  · rw [start_idle_done o url s hp hq hr (ho _) (ho _)]
    refine ⟨⟨rfl, rfl⟩, ?_, ?_, by decide⟩
    · intro _; rfl
    · intro h; rw [hp] at h; cases h

/-- Instance of C2: at start-up the first table card is presented. -/
theorem C2_presented_mapped_starts_once_witness :
    (on_picc_state_changed piccStates allOk (presented piccStates uid_LC)
        (initial_state true true)).isPlaying url_LC :=
  (C2_presented_mapped_starts_once piccStates allOk (initial_state true true)
    (presented piccStates uid_LC) url_LC rfl rfl (fun _ => rfl) rfl (by decide)).1

/-- Claim C5: with the pipeline created and every call succeeding, a Removed
event (picc state IDLE, old state at least ACTIVE) in state `Playing(u)` issues
exactly one stop sequence and ends in Idle; in state Idle it makes no call and
leaves the state as it is, so a further Removed event changes nothing. -/
theorem C5_removed_stops_iff_playing (K : PiccStates) (o : Oracle) (s : State)
    (event : rc522_picc_state_changed_event_t)
    (hq : s.pipeline = true) (ho : ∀ n, o n = ESP_OK)
    (he : event.picc.state = K.RC522_PICC_STATE_IDLE
            ∧ event.old_state ≥ K.RC522_PICC_STATE_ACTIVE) :
    (∀ u, s.isPlaying u →
        (on_picc_state_changed K o event s).isIdle
        ∧ (on_picc_state_changed K o event s).log
            = s.log ++ [LogEntry.call PipelineCall.audio_pipeline_stop ESP_OK,
                        LogEntry.call PipelineCall.audio_pipeline_wait_for_stop ESP_OK,
                        LogEntry.call PipelineCall.audio_pipeline_reset_ringbuffer ESP_OK])
    ∧ (s.isIdle → on_picc_state_changed K o event s = s)
    ∧ ((s.isIdle ∨ ∃ u, s.isPlaying u) →
        on_picc_state_changed K o event (on_picc_state_changed K o event s)
          = on_picc_state_changed K o event s) := by
  have hstep : ∀ t, on_picc_state_changed K o event t = (stop_current_audio o t).2 := by
    intro t
    simp [on_picc_state_changed, he.1, he.2, K.distinct]
  have hplay : ∀ t, t.audio_playing = true → t.pipeline = true →
      on_picc_state_changed K o event t
        = { t with audio_playing := false, current_playing_url := none,
                   log := t.log ++ [LogEntry.call PipelineCall.audio_pipeline_stop ESP_OK,
                        LogEntry.call PipelineCall.audio_pipeline_wait_for_stop ESP_OK,
                        LogEntry.call PipelineCall.audio_pipeline_reset_ringbuffer ESP_OK] } := by
    intro t ht hqt
    rw [hstep, stop_done o t ht hqt (ho _) (ho _)]
    simp [stoppedState, ho]
  have hidle : ∀ t, t.audio_playing = false → on_picc_state_changed K o event t = t := by
    intro t ht
    rw [hstep, stop_noop o t (Or.inl ht)]
  refine ⟨?_, fun h => hidle s h.1, ?_⟩
  · intro u hu
    rw [hplay s hu.1 hq]
    exact ⟨⟨rfl, rfl⟩, rfl⟩
  · intro h
    rcases h with h | ⟨u, hu⟩
    · rw [hidle s h.1, hidle s h.1]
    · rw [hplay s hu.1 hq]
      exact hidle _ rfl

/-- Instance of C5: a Removed event at start-up, with nothing playing. -/
theorem C5_removed_stops_iff_playing_witness :
    on_picc_state_changed piccStates allOk (removed piccStates uid_LC)
        (initial_state true true) = initial_state true true :=
  (C5_removed_stops_iff_playing piccStates allOk (initial_state true true)
    (removed piccStates uid_LC) rfl (fun _ => rfl) ⟨rfl, by decide⟩).2.1 ⟨rfl, rfl⟩

/-- Claim C7: presenting a card for which `find_url_for_uid` returns NULL
leaves the whole state as it is, in every state: no call is recorded and
`audio_playing` and `current_playing_url` keep their values, so an unmapped
card does not interrupt a playback in progress. -/
theorem C7_unmapped_card_changes_nothing (K : PiccStates) (o : Oracle) (s : State)
    (event : rc522_picc_state_changed_event_t)
    (he : event.picc.state = K.RC522_PICC_STATE_ACTIVE)
    (hu : find_url_for_uid event.picc.uid = none) :
    on_picc_state_changed K o event s = s := by
  simp [on_picc_state_changed, he, hu]

/-- Instance of C7: a card without a mapping is presented while the first
table url is playing. -/
theorem C7_unmapped_card_changes_nothing_witness :
    find_url_for_uid uid_unknown = none
    ∧ on_picc_state_changed piccStates allOk (presented piccStates uid_unknown)
        { initial_state true true with audio_playing := true,
                                        current_playing_url := some url_LC }
      = { initial_state true true with audio_playing := true,
                                        current_playing_url := some url_LC } :=
  ⟨by decide, C7_unmapped_card_changes_nothing piccStates allOk _
    (presented piccStates uid_unknown) rfl (by decide)⟩

/-! ## Status events of the main loop -/

/-- Claim C6, as the code has it: handling a status message of an audio
element records no framework call, whatever its source and status; it leaves
the state Idle when the message is Stopped or Finished from the output stage
(`i2s_stream_writer`) or OpenError from the input stage
(`http_stream_reader`), and leaves the state as it is for every other
combination of stage and status. -/
theorem C6_status_event_clears_by_stage (o : Oracle) (s : State) (source : msg_source_t)
    (data : audio_element_status_t) :
    pipelineCalls (main_loop_iteration o ESP_OK (statusMsg source data) s).log
      = pipelineCalls s.log
    ∧ ((source = msg_source_t.i2s_stream_writer
          ∧ (data = audio_element_status_t.AEL_STATUS_STATE_STOPPED
              ∨ data = audio_element_status_t.AEL_STATUS_STATE_FINISHED))
        ∨ (source = msg_source_t.http_stream_reader
          ∧ data = audio_element_status_t.AEL_STATUS_ERROR_OPEN) →
        (main_loop_iteration o ESP_OK (statusMsg source data) s).isIdle)
    ∧ (¬ ((source = msg_source_t.i2s_stream_writer
          ∧ (data = audio_element_status_t.AEL_STATUS_STATE_STOPPED
              ∨ data = audio_element_status_t.AEL_STATUS_STATE_FINISHED))
        ∨ (source = msg_source_t.http_stream_reader
          ∧ data = audio_element_status_t.AEL_STATUS_ERROR_OPEN)) →
        main_loop_iteration o ESP_OK (statusMsg source data) s = s) := by
  cases source <;> cases data <;>
    simp [main_loop_iteration, statusMsg, pipelineCalls, State.isIdle, List.filterMap_append]

/-- Counterexample to claim C6 as stated: in state `Playing(url_LC)` a Stopped
status message tagged with the decoder stage leaves the state
`Playing(url_LC)`, not Idle. -/
theorem C6_counterexample_decoder_stopped :
    playing_LC.isPlaying url_LC
    ∧ (main_loop_iteration allOk ESP_OK
        (statusMsg msg_source_t.selected_decoder
          audio_element_status_t.AEL_STATUS_STATE_STOPPED) playing_LC).audio_playing = true
    ∧ (main_loop_iteration allOk ESP_OK
        (statusMsg msg_source_t.selected_decoder
          audio_element_status_t.AEL_STATUS_STATE_STOPPED) playing_LC).current_playing_url
        = some url_LC := by
  refine ⟨⟨?_, ?_⟩, ?_, ?_⟩ <;> decide

/-! ## Failures of framework calls -/

theorem runAttempts_append (a b : List LogEntry) :
    runAttempts (a ++ b) = runAttempts a + runAttempts b := by
  simp [runAttempts, List.countP_append]

theorem start_from_idle_outcome (o : Oracle) (u : String) (t : State)
    (hp : t.audio_playing = false) (hq : t.pipeline = true)
    (hr : t.http_stream_reader = true) :
    runAttempts (start_audio_for_url o (some u) t).2.log ≤ runAttempts t.log + 1
    ∧ ((start_audio_for_url o (some u) t).1 ≠ ESP_OK →
        (start_audio_for_url o (some u) t).2.audio_playing = false
        ∧ (start_audio_for_url o (some u) t).2.current_playing_url
            = t.current_playing_url) := by
  by_cases h1 : o t.log.length = ESP_OK
  · by_cases h2 : o (t.log.length + 1) = ESP_OK
    · rw [start_idle_done o u t hp hq hr h1 h2]
      simp [runAttempts_append, runAttempts]
    · rw [start_idle_fail_run o u t hp hq hr h1 h2]
      simp [runAttempts_append, runAttempts, hp]
  · rw [start_idle_fail_uri o u t hp hq hr h1]
    simp [runAttempts_append, runAttempts, hp]

theorem start_failure_outcome (o : Oracle) (url : Option String) (s : State) :
    runAttempts (start_audio_for_url o url s).2.log ≤ runAttempts s.log + 1
    ∧ ((start_audio_for_url o url s).1 ≠ ESP_OK →
        (s.isIdle → (start_audio_for_url o url s).2.isIdle)
        ∧ (s.audio_playing = true → s.pipeline = true → s.http_stream_reader = true →
            url ≠ none → o s.log.length = ESP_OK → o (s.log.length + 1) = ESP_OK →
            (start_audio_for_url o url s).2.isIdle)
        ∧ ((start_audio_for_url o url s).2.isIdle
            ∨ ((start_audio_for_url o url s).2.audio_playing = s.audio_playing
                ∧ (start_audio_for_url o url s).2.current_playing_url
                    = s.current_playing_url))) := by
  cases url with
  | none => simp [start_invalid, State.isIdle]
  | some u =>
    rcases Bool.eq_false_or_eq_true s.pipeline with hq | hq
    swap
    · simp [start_invalid o (some u) s (Or.inr (Or.inl hq)), State.isIdle, hq]
    rcases Bool.eq_false_or_eq_true s.http_stream_reader with hr | hr
    swap
    · simp [start_invalid o (some u) s (Or.inr (Or.inr hr)), State.isIdle, hr]
    rcases Bool.eq_false_or_eq_true s.audio_playing with hp | hp
    · by_cases h1 : o s.log.length = ESP_OK
      · by_cases h2 : o (s.log.length + 1) = ESP_OK
        · rw [start_playing_stop_done o u s hp hq hr h1 h2]
          have := start_from_idle_outcome o u (stoppedState o s) rfl hq hr
          refine ⟨?_, ?_⟩
          · have h := this.1
            simp [stoppedState, runAttempts_append] at h ⊢
            simpa [runAttempts] using h
          · intro hret
            have h := this.2 hret
            simp [State.isIdle, hp, h.1, h.2]
            simp [stoppedState]
        · rw [start_playing_stop_failed o u s hp hq hr
              (by rw [stop_fail_wait o s hp hq h1 h2]; exact h2),
            stop_fail_wait o s hp hq h1 h2]
          simp [runAttempts_append, runAttempts, State.isIdle, hp, h2]
      · rw [start_playing_stop_failed o u s hp hq hr
            (by rw [stop_fail_stop o s hp hq h1]; exact h1),
          stop_fail_stop o s hp hq h1]
        simp [runAttempts_append, runAttempts, State.isIdle, hp, h1]
    · have := start_from_idle_outcome o u s hp hq hr
      refine ⟨this.1, fun hret => ?_⟩
      have h := this.2 hret
      simp [State.isIdle, hp, h.1, h.2]

theorem start_playing_fail_stop (o : Oracle) (u : String) (s : State)
    (hp : s.audio_playing = true) (hq : s.pipeline = true)
    (hr : s.http_stream_reader = true) (h1 : o s.log.length ≠ ESP_OK) :
    start_audio_for_url o (some u) s
      = (o s.log.length,
         { s with log := s.log ++ [LogEntry.call PipelineCall.audio_pipeline_stop
                                    (o s.log.length)] }) := by
  rw [start_playing_stop_failed o u s hp hq hr
      (by rw [stop_fail_stop o s hp hq h1]; exact h1),
    stop_fail_stop o s hp hq h1]

theorem start_playing_fail_wait (o : Oracle) (u : String) (s : State)
    (hp : s.audio_playing = true) (hq : s.pipeline = true)
    (hr : s.http_stream_reader = true) (h1 : o s.log.length = ESP_OK)
    (h2 : o (s.log.length + 1) ≠ ESP_OK) :
    start_audio_for_url o (some u) s
      = (o (s.log.length + 1),
         { s with log := s.log ++ [LogEntry.call PipelineCall.audio_pipeline_stop ESP_OK,
              LogEntry.call PipelineCall.audio_pipeline_wait_for_stop
                (o (s.log.length + 1))] }) := by
  rw [start_playing_stop_failed o u s hp hq hr
      (by rw [stop_fail_wait o s hp hq h1 h2]; exact h2),
    stop_fail_wait o s hp hq h1 h2]

theorem start_failure_keeps_playing (o : Oracle) (url : Option String) (s : State)
    (v : String) (hs : s.isPlaying v)
    (h : url = none ∨ s.pipeline = false ∨ s.http_stream_reader = false
          ∨ o s.log.length ≠ ESP_OK ∨ o (s.log.length + 1) ≠ ESP_OK) :
    (start_audio_for_url o url s).1 ≠ ESP_OK
    ∧ (start_audio_for_url o url s).2.isPlaying v
    ∧ runAttempts (start_audio_for_url o url s).2.log = runAttempts s.log := by
  have hinv : ESP_ERR_INVALID_ARG ≠ ESP_OK := by decide
  cases url with
  | none =>
    rw [start_invalid o none s (Or.inl rfl)]
    exact ⟨hinv, hs, rfl⟩
  | some u =>
    rcases Bool.eq_false_or_eq_true s.pipeline with hq | hq
    swap
    · rw [start_invalid o (some u) s (Or.inr (Or.inl hq))]
      exact ⟨hinv, hs, rfl⟩
    rcases Bool.eq_false_or_eq_true s.http_stream_reader with hr | hr
    swap
    · rw [start_invalid o (some u) s (Or.inr (Or.inr hr))]
      exact ⟨hinv, hs, rfl⟩
    by_cases h1 : o s.log.length = ESP_OK
    · have h2 : o (s.log.length + 1) ≠ ESP_OK := by
        rcases h with h | h | h | h | h
        · cases h
        · rw [hq] at h; cases h
        · rw [hr] at h; cases h
        · exact absurd h1 h
        · exact h
      rw [start_playing_fail_wait o u s hs.1 hq hr h1 h2]
      refine ⟨h2, hs, ?_⟩
      simp [runAttempts_append, runAttempts]
    · rw [start_playing_fail_stop o u s hs.1 hq hr h1]
      refine ⟨h1, hs, ?_⟩
      simp [runAttempts_append, runAttempts]

/-- Claim C8, as the code has it: `start_audio_for_url` records at most one
`audio_pipeline_run` call; when it returns a value other than `ESP_OK`, the
state after the call is Idle if the prior state was Idle, and also if the prior
state was Playing, the arguments were valid and `audio_pipeline_stop` and
`audio_pipeline_wait_for_stop` returned `ESP_OK`. In the remaining cases the
call fails and the state stays `Playing(v)`, with no run attempt: with an
invalid argument (NULL url, pipeline or reader) it returns
`ESP_ERR_INVALID_ARG` and the whole state is the one before the call; when
`audio_pipeline_stop` fails, or succeeds and `audio_pipeline_wait_for_stop`
fails, it returns that error and the state is the one before the call with
only the stop calls added to the record. -/
theorem C8_start_failure_state (o : Oracle) (url : Option String) (s : State) :
    runAttempts (start_audio_for_url o url s).2.log ≤ runAttempts s.log + 1
    ∧ ((start_audio_for_url o url s).1 ≠ ESP_OK →
        (s.isIdle → (start_audio_for_url o url s).2.isIdle)
        ∧ (s.audio_playing = true → s.pipeline = true → s.http_stream_reader = true →
            url ≠ none → o s.log.length = ESP_OK → o (s.log.length + 1) = ESP_OK →
            (start_audio_for_url o url s).2.isIdle)
        ∧ ((start_audio_for_url o url s).2.isIdle
            ∨ ((start_audio_for_url o url s).2.audio_playing = s.audio_playing
                ∧ (start_audio_for_url o url s).2.current_playing_url
                    = s.current_playing_url)))
    ∧ (∀ v, s.isPlaying v →
        (url = none ∨ s.pipeline = false ∨ s.http_stream_reader = false
          ∨ o s.log.length ≠ ESP_OK ∨ o (s.log.length + 1) ≠ ESP_OK) →
        (start_audio_for_url o url s).1 ≠ ESP_OK
        ∧ (start_audio_for_url o url s).2.isPlaying v
        ∧ runAttempts (start_audio_for_url o url s).2.log = runAttempts s.log)
    ∧ ((url = none ∨ s.pipeline = false ∨ s.http_stream_reader = false) →
        start_audio_for_url o url s = (ESP_ERR_INVALID_ARG, s)
        ∧ ESP_ERR_INVALID_ARG ≠ ESP_OK)
    ∧ (∀ u, url = some u → s.audio_playing = true → s.pipeline = true →
        s.http_stream_reader = true → o s.log.length ≠ ESP_OK →
        start_audio_for_url o url s
          = (o s.log.length,
             { s with log := s.log ++ [LogEntry.call PipelineCall.audio_pipeline_stop
                                        (o s.log.length)] }))
    ∧ (∀ u, url = some u → s.audio_playing = true → s.pipeline = true →
        s.http_stream_reader = true → o s.log.length = ESP_OK →
        o (s.log.length + 1) ≠ ESP_OK →
        start_audio_for_url o url s
          = (o (s.log.length + 1),
             { s with log := s.log ++ [LogEntry.call PipelineCall.audio_pipeline_stop ESP_OK,
                  LogEntry.call PipelineCall.audio_pipeline_wait_for_stop
                    (o (s.log.length + 1))] })) := by
  have hold := start_failure_outcome o url s
  refine ⟨hold.1, hold.2, ?_, ?_, ?_, ?_⟩
  · intro v hs h
    exact start_failure_keeps_playing o url s v hs h
  · intro h
    exact ⟨start_invalid o url s h, by decide⟩
  · intro u hu hp hq hr h1
    rw [hu]
    exact start_playing_fail_stop o u s hp hq hr h1
  · intro u hu hp hq hr h1 h2
    rw [hu]
    exact start_playing_fail_wait o u s hp hq hr h1 h2

/-- Counterexample to claim C8 as stated: in state `Playing(url_LC)`, when
`audio_pipeline_stop` fails, `start_audio_for_url` returns `ESP_FAIL` (not
`ESP_OK`) and the state after the call is still `Playing(url_LC)`, not Idle. -/
theorem C8_counterexample_stop_fails :
    (start_audio_for_url (failAt 2) (some url_Krishna) playing_LC).1 = ESP_FAIL
    ∧ ESP_FAIL ≠ ESP_OK
    ∧ (start_audio_for_url (failAt 2) (some url_Krishna) playing_LC).2.audio_playing = true
    ∧ (start_audio_for_url (failAt 2) (some url_Krishna) playing_LC).2.current_playing_url
        = some url_LC := by
  refine ⟨?_, ?_, ?_, ?_⟩ <;> decide

/-- Claim C9, as the code has it: in state `Playing(u)` with the pipeline and
the HTTP reader created, when `audio_pipeline_stop` succeeds and
`audio_pipeline_wait_for_stop` returns an error, the controller gives the event
up: after a Removed event, and after presenting a mapped card, the state is
the prior one (still `Playing(u)`) with only the stop and the failed wait
recorded, so no `set_uri` and no `run` is issued for the new card. -/
theorem C9_wait_failure_keeps_playing (K : PiccStates) (o : Oracle) (s : State) (u : String)
    (hs : s.isPlaying u) (hq : s.pipeline = true) (hr : s.http_stream_reader = true)
    (h1 : o s.log.length = ESP_OK) (h2 : o (s.log.length + 1) ≠ ESP_OK) :
    (∀ event : rc522_picc_state_changed_event_t,
        event.picc.state = K.RC522_PICC_STATE_IDLE
          ∧ event.old_state ≥ K.RC522_PICC_STATE_ACTIVE →
        on_picc_state_changed K o event s
          = { s with log := s.log ++ [LogEntry.call PipelineCall.audio_pipeline_stop ESP_OK,
                LogEntry.call PipelineCall.audio_pipeline_wait_for_stop
                  (o (s.log.length + 1))] })
    ∧ (∀ (event : rc522_picc_state_changed_event_t) (url : String),
        event.picc.state = K.RC522_PICC_STATE_ACTIVE →
        find_url_for_uid event.picc.uid = some url →
        on_picc_state_changed K o event s
          = { s with log := s.log ++ [LogEntry.call PipelineCall.audio_pipeline_stop ESP_OK,
                LogEntry.call PipelineCall.audio_pipeline_wait_for_stop
                  (o (s.log.length + 1))] })
    ∧ ({ s with log := s.log ++ [LogEntry.call PipelineCall.audio_pipeline_stop ESP_OK,
                LogEntry.call PipelineCall.audio_pipeline_wait_for_stop
                  (o (s.log.length + 1))] } : State).isPlaying u := by
  have hstop := stop_fail_wait o s hs.1 hq h1 h2
  refine ⟨?_, ?_, hs⟩
  · intro event he
    simp [on_picc_state_changed, he.1, he.2, K.distinct, hstop]
  · intro event url he hu
    simp only [on_picc_state_changed, he, hu, if_true]
    rw [start_playing_stop_failed o url s hs.1 hq hr (by rw [hstop]; exact h2), hstop]

/-- Instance of C9: the first table card is playing, the card is removed and
the wait for the stop fails. -/
theorem C9_wait_failure_keeps_playing_witness :
    on_picc_state_changed piccStates (failAt 3) (removed piccStates uid_LC) playing_LC
      = { playing_LC with
          log := playing_LC.log ++ [LogEntry.call PipelineCall.audio_pipeline_stop ESP_OK,
                LogEntry.call PipelineCall.audio_pipeline_wait_for_stop
                  (failAt 3 (playing_LC.log.length + 1))] } :=
  (C9_wait_failure_keeps_playing piccStates (failAt 3) playing_LC url_LC
      (by constructor <;> decide) (by decide) (by decide) (by decide) (by decide)).1
    (removed piccStates uid_LC) (by decide)

/-- Counterexample to claim C9 as stated: from start-up the first card is
presented (state `Playing(url_LC)`), then `audio_pipeline_wait_for_stop`
fails. After a Removed event the state is still `Playing(url_LC)`, not Idle;
after presenting the second table card instead, the state is still
`Playing(url_LC)`, not `Playing(url_Krishna)`, and no further call than the
stop and the failed wait is recorded. -/
theorem C9_counterexample_wait_fails :
    (on_picc_state_changed piccStates (failAt 3) (removed piccStates uid_LC)
        playing_LC).audio_playing = true
    ∧ (on_picc_state_changed piccStates (failAt 3) (removed piccStates uid_LC)
        playing_LC).current_playing_url = some url_LC
    ∧ find_url_for_uid uid_Krishna = some url_Krishna
    ∧ on_picc_state_changed piccStates (failAt 3) (presented piccStates uid_Krishna) playing_LC
        = { playing_LC with
            log := [LogEntry.call (PipelineCall.audio_element_set_uri url_LC) ESP_OK,
                    LogEntry.call PipelineCall.audio_pipeline_run ESP_OK,
                    LogEntry.call PipelineCall.audio_pipeline_stop ESP_OK,
                    LogEntry.call PipelineCall.audio_pipeline_wait_for_stop ESP_FAIL] }
    ∧ playing_LC.current_playing_url = some url_LC := by
  refine ⟨?_, ?_, ?_, ?_, ?_⟩ <;> decide

/-- Claim C10, as the code has it: in a state with `audio_playing` set and the
pipeline created, if `stop_current_audio` returns `ESP_OK` then
`audio_pipeline_stop`, `audio_pipeline_wait_for_stop` and
`audio_pipeline_reset_ringbuffer` were each called, in that order and nothing
else, the first two returned `ESP_OK`, and the state is Idle; the value
returned by `audio_pipeline_reset_ringbuffer` is whatever the framework gave. -/
theorem C10_stop_ok_means_stop_and_wait_ok (o : Oracle) (s : State)
    (hp : s.audio_playing = true) (hq : s.pipeline = true)
    (hret : (stop_current_audio o s).1 = ESP_OK) :
    (stop_current_audio o s).2.log
      = s.log ++ [LogEntry.call PipelineCall.audio_pipeline_stop ESP_OK,
                  LogEntry.call PipelineCall.audio_pipeline_wait_for_stop ESP_OK,
                  LogEntry.call PipelineCall.audio_pipeline_reset_ringbuffer
                    (o (s.log.length + 2))]
    ∧ o s.log.length = ESP_OK ∧ o (s.log.length + 1) = ESP_OK
    ∧ (stop_current_audio o s).2.isIdle := by
  by_cases h1 : o s.log.length = ESP_OK
  · by_cases h2 : o (s.log.length + 1) = ESP_OK
    · rw [stop_done o s hp hq h1 h2]
      exact ⟨rfl, h1, h2, rfl, rfl⟩
    · rw [stop_fail_wait o s hp hq h1 h2] at hret
      exact absurd hret h2
  · rw [stop_fail_stop o s hp hq h1] at hret
    exact absurd hret h1

/-- Instance of C10: the first table card is playing and every call of the
stop succeeds. -/
theorem C10_stop_ok_means_stop_and_wait_ok_witness :
    (stop_current_audio allOk playing_LC).2.isIdle :=
  (C10_stop_ok_means_stop_and_wait_ok allOk playing_LC (by decide) (by decide)
    (by decide)).2.2.2

/-- Counterexample to claim C10 as stated: in state `Playing(url_LC)`, when
`audio_pipeline_reset_ringbuffer` fails with `ESP_FAIL`, `stop_current_audio`
still returns `ESP_OK`. -/
theorem C10_counterexample_reset_fails :
    playing_LC.isPlaying url_LC
    ∧ (stop_current_audio (failAt 4) playing_LC).1 = ESP_OK
    ∧ (stop_current_audio (failAt 4) playing_LC).2.log
        = [LogEntry.call (PipelineCall.audio_element_set_uri url_LC) ESP_OK,
           LogEntry.call PipelineCall.audio_pipeline_run ESP_OK,
           LogEntry.call PipelineCall.audio_pipeline_stop ESP_OK,
           LogEntry.call PipelineCall.audio_pipeline_wait_for_stop ESP_OK,
           LogEntry.call PipelineCall.audio_pipeline_reset_ringbuffer ESP_FAIL]
    ∧ ESP_FAIL ≠ ESP_OK := by
  refine ⟨⟨?_, ?_⟩, ?_, ?_, ?_⟩ <;> decide

/-! ## Sequences of card events -/

theorem exists_last_split {α : Type} (p : α → Prop) (l : List α) (h : ∃ x, x ∈ l ∧ p x) :
    ∃ pre r post, l = pre ++ r :: post ∧ p r ∧ ∀ x, x ∈ post → ¬ p x := by
  induction l with
  | nil =>
    obtain ⟨x, hx, _⟩ := h
    cases hx
  | cons a l ih =>
    by_cases hl : ∃ x, x ∈ l ∧ p x
    · obtain ⟨pre, r, post, hsplit, hr, hpost⟩ := ih hl
      exact ⟨a :: pre, r, post, by rw [hsplit]; rfl, hr, hpost⟩
    · obtain ⟨x, hx, hpx⟩ := h
      rcases List.mem_cons.1 hx with hxa | hxl
      · refine ⟨[], a, l, rfl, hxa ▸ hpx, ?_⟩
        intro y hy hpy
        exact hl ⟨y, hy, hpy⟩
      · exact absurd ⟨x, hxl, hpx⟩ hl

theorem run_append (K : PiccStates) (o : Oracle) (s : State) (a b : List Event) :
    run K o s (a ++ b) = run K o (run K o s a) b := by
  simp [run, List.foldl_append]

theorem run_cons (K : PiccStates) (o : Oracle) (s : State) (e : Event) (l : List Event) :
    run K o s (e :: l) = run K o (handle K o s e) l := rfl

theorem presented_known_allOk (K : PiccStates) (o : Oracle) (s : State)
    (e : rc522_picc_state_changed_event_t) (url : String) (ho : ∀ n, o n = ESP_OK)
    (hs : Ready s) (he : e.picc.state = K.RC522_PICC_STATE_ACTIVE)
    (hu : find_url_for_uid e.picc.uid = some url) :
    Ready (on_picc_state_changed K o e s) ∧ (on_picc_state_changed K o e s).isPlaying url := by
  obtain ⟨hq, hr, _⟩ := hs
  have hstep : on_picc_state_changed K o e s = (start_audio_for_url o (some url) s).2 := by
    simp [on_picc_state_changed, he, hu]
  rw [hstep]
  rcases Bool.eq_false_or_eq_true s.audio_playing with hp | hp
  · rw [start_playing_stop_done o url s hp hq hr (ho _) (ho _),
      start_idle_done o url (stoppedState o s) rfl hq hr (ho _) (ho _)]
    exact ⟨⟨hq, hr, fun h => by cases h⟩, rfl, rfl⟩
  · rw [start_idle_done o url s hp hq hr (ho _) (ho _)]
    exact ⟨⟨hq, hr, fun h => by cases h⟩, rfl, rfl⟩

theorem removed_allOk (K : PiccStates) (o : Oracle) (s : State)
    (e : rc522_picc_state_changed_event_t) (ho : ∀ n, o n = ESP_OK)
    (hs : Ready s) (he : isRemoved K e) :
    Ready (on_picc_state_changed K o e s) ∧ (on_picc_state_changed K o e s).isIdle := by
  obtain ⟨hq, hr, hwf⟩ := hs
  have hstep : on_picc_state_changed K o e s = (stop_current_audio o s).2 := by
    simp [on_picc_state_changed, he.1, he.2, K.distinct]
  rw [hstep]
  rcases Bool.eq_false_or_eq_true s.audio_playing with hp | hp
  · rw [stop_done o s hp hq (ho _) (ho _)]
    exact ⟨⟨hq, hr, fun _ => rfl⟩, rfl, rfl⟩
  · rw [stop_noop o s (Or.inl hp)]
    exact ⟨⟨hq, hr, hwf⟩, hp, hwf hp⟩

theorem other_event_noop (K : PiccStates) (o : Oracle) (s : State)
    (e : rc522_picc_state_changed_event_t) (h1 : ¬ isRemoved K e)
    (h2 : ¬ isPresentedKnown K e) :
    on_picc_state_changed K o e s = s := by
  unfold on_picc_state_changed
  by_cases he : e.picc.state = K.RC522_PICC_STATE_ACTIVE
  · have hu : find_url_for_uid e.picc.uid = none := by
      by_contra hne
      exact h2 ⟨he, hne⟩
    simp [he, hu]
  · have h1' : ¬ (e.picc.state = K.RC522_PICC_STATE_IDLE
        ∧ e.old_state ≥ K.RC522_PICC_STATE_ACTIVE) := h1
    simp only [he, if_false, h1']

theorem run_noop (K : PiccStates) (o : Oracle) (s : State)
    (post : List rc522_picc_state_changed_event_t)
    (h1 : ∀ x, x ∈ post → ¬ isRemoved K x)
    (h2 : ∀ x, x ∈ post → ¬ isPresentedKnown K x) :
    run K o s (post.map Event.picc) = s := by
  induction post generalizing s with
  | nil => rfl
  | cons e post ih =>
    rw [List.map_cons, run_cons]
    have : handle K o s (Event.picc e) = s :=
      other_event_noop K o s e (h1 e (List.mem_cons_self e post))
        (h2 e (List.mem_cons_self e post))
    rw [this]
    exact ih s (fun x hx => h1 x (List.mem_cons_of_mem e hx))
      (fun x hx => h2 x (List.mem_cons_of_mem e hx))

theorem run_ready (K : PiccStates) (o : Oracle) (ho : ∀ n, o n = ESP_OK)
    (es : List rc522_picc_state_changed_event_t) (s : State) (hs : Ready s) :
    Ready (run K o s (es.map Event.picc)) := by
  induction es generalizing s with
  | nil => exact hs
  | cons e es ih =>
    rw [List.map_cons, run_cons]
    apply ih
    show Ready (on_picc_state_changed K o e s)
    by_cases hr : isRemoved K e
    · exact (removed_allOk K o s e ho hs hr).1
    · by_cases hk : isPresentedKnown K e
      · obtain ⟨he, hu⟩ := hk
        obtain ⟨url, hurl⟩ := Option.ne_none_iff_exists'.1 hu
        exact (presented_known_allOk K o s e url ho hs he hurl).1
      · rw [other_event_noop K o s e hr hk]
        exact hs

/-- Claim C1, as the code has it: from the initial Idle state with the pipeline
and the HTTP reader created and every call succeeding, after any sequence of
card events the state is `Playing(url)` when `url` is the mapping of a
Presented card after which the sequence holds no Removed event and no
Presented card with a mapping (Presented cards without a mapping may follow);
the state is Idle when every Presented card with a mapping is followed by a
Removed event. -/
theorem C1_final_state_of_card_events (K : PiccStates) (o : Oracle)
    (es : List rc522_picc_state_changed_event_t) (ho : ∀ n, o n = ESP_OK) :
    (∀ pre e post url, es = pre ++ e :: post →
        e.picc.state = K.RC522_PICC_STATE_ACTIVE →
        find_url_for_uid e.picc.uid = some url →
        (∀ x, x ∈ post → ¬ (x.picc.state = K.RC522_PICC_STATE_IDLE
                              ∧ x.old_state ≥ K.RC522_PICC_STATE_ACTIVE)) →
        (∀ x, x ∈ post → x.picc.state = K.RC522_PICC_STATE_ACTIVE →
                          find_url_for_uid x.picc.uid = none) →
        (run K o (initial_state true true) (es.map Event.picc)).isPlaying url)
    ∧ ((∀ pre e post, es = pre ++ e :: post →
          e.picc.state = K.RC522_PICC_STATE_ACTIVE →
          find_url_for_uid e.picc.uid ≠ none →
          ∃ x, x ∈ post ∧ x.picc.state = K.RC522_PICC_STATE_IDLE
                  ∧ x.old_state ≥ K.RC522_PICC_STATE_ACTIVE) →
        (run K o (initial_state true true) (es.map Event.picc)).isIdle) := by
  have hinit : Ready (initial_state true true) := ⟨rfl, rfl, fun _ => rfl⟩
  constructor
  · intro pre e post url hsplit he hu hrem hpres
    rw [hsplit, List.map_append, List.map_cons, run_append, run_cons]
    have hpre := run_ready K o ho pre _ hinit
    have hstep := presented_known_allOk K o _ e url ho hpre he hu
    rw [run_noop K o _ post hrem (fun x hx hk => hk.2 (hpres x hx hk.1))]
    exact hstep.2
  · intro hall
    by_cases hex : ∃ x, x ∈ es ∧ isRemoved K x
    · obtain ⟨pre, r, post, hsplit, hr, hpost⟩ := exists_last_split (isRemoved K) es hex
      rw [hsplit, List.map_append, List.map_cons, run_append, run_cons]
      have hpre := run_ready K o ho pre _ hinit
      have hstep := removed_allOk K o _ r ho hpre hr
      rw [run_noop K o _ post hpost ?_]
      · exact hstep.2
      · intro x hx hk
        obtain ⟨p1, p2, hp⟩ := List.append_of_mem hx
        obtain ⟨y, hy, hyr⟩ := hall (pre ++ r :: p1) x p2
          (by rw [hsplit, hp]; simp) hk.1 hk.2
        exact hpost y (by rw [hp]; simp [hy]) hyr
    · rw [run_noop K o _ es (fun x hx hr => hex ⟨x, hx, hr⟩) ?_]
      · exact ⟨rfl, rfl⟩
      · intro x hx hk
        obtain ⟨p1, p2, hp⟩ := List.append_of_mem hx
        obtain ⟨y, hy, hyr⟩ := hall p1 x p2 hp hk.1 hk.2
        exact hex ⟨y, by rw [hp]; simp [hy], hyr⟩

/-- Instance of C1: the first table card is presented, then a card without a
mapping; the state is `Playing(url_LC)`. -/
theorem C1_final_state_of_card_events_witness :
    (run piccStates allOk (initial_state true true)
        ([presented piccStates uid_LC, presented piccStates uid_unknown].map
          Event.picc)).isPlaying url_LC :=
  (C1_final_state_of_card_events piccStates allOk
      [presented piccStates uid_LC, presented piccStates uid_unknown] (fun _ => rfl)).1
    [] (presented piccStates uid_LC) [presented piccStates uid_unknown] url_LC rfl rfl
    (by decide) (by decide) (by decide)

/-- Counterexample to claim C1 as stated: the first table card is presented,
then a card without a mapping. The last Presented event has no known id, so the
claim predicts Idle; the code leaves the state `Playing(url_LC)`. -/
theorem C1_counterexample_unmapped_after_mapped :
    claimedFinalUrl piccStates
        [presented piccStates uid_LC, presented piccStates uid_unknown].reverse = none
    ∧ (run piccStates allOk (initial_state true true)
        ([presented piccStates uid_LC, presented piccStates uid_unknown].map
          Event.picc)).audio_playing = true
    ∧ (run piccStates allOk (initial_state true true)
        ([presented piccStates uid_LC, presented piccStates uid_unknown].map
          Event.picc)).current_playing_url = some url_LC := by
  refine ⟨?_, ?_, ?_⟩ <;> decide

/-! ## No second start while a stream is running -/

theorem guardScan_append (g : Guard) (a b : List LogEntry) :
    guardScan g (a ++ b) = (guardScan g a).bind fun g' => guardScan g' b := by
  induction a generalizing g with
  | nil => rfl
  | cons e a ih =>
    simp only [List.cons_append, guardScan]
    cases guardStep g e with
    | none => rfl
    | some g' => exact ih g'

theorem guardScan_after (a b : List LogEntry) (g : Guard)
    (h : guardScan Guard.clear a = some g) :
    guardScan Guard.clear (a ++ b) = guardScan g b := by
  rw [guardScan_append, h]; rfl

theorem guarded_of_not_playing (s : State) (h : Guarded s) (hp : s.audio_playing = false) :
    guardScan Guard.clear s.log = some Guard.clear := by
  rcases h with h | ⟨_, h⟩
  · exact h
  · rw [hp] at h; cases h

theorem guarded_stop (o : Oracle) (s : State) (h : Guarded s) :
    Guarded (stop_current_audio o s).2 := by
  rcases Bool.eq_false_or_eq_true s.audio_playing with hp | hp
  swap
  · rw [stop_noop o s (Or.inl hp)]; exact h
  rcases Bool.eq_false_or_eq_true s.pipeline with hq | hq
  swap
  · rw [stop_noop o s (Or.inr hq)]; exact h
  by_cases h1 : o s.log.length = ESP_OK
  · by_cases h2 : o (s.log.length + 1) = ESP_OK
    · rw [stop_done o s hp hq h1 h2]
      left
      rcases h with h | ⟨h, _⟩ <;>
        simp [stoppedState, guardScan_after _ _ _ h, guardScan, guardStep, isCleared, isRun, isRunOk,
          isStopOk, isWaitOk]
    · rw [stop_fail_wait o s hp hq h1 h2]
      rcases h with h | ⟨h, _⟩
      · left
        simp [guardScan_after _ _ _ h, guardScan, guardStep, isCleared, isRun, isRunOk]
      · right
        simp [guardScan_after _ _ _ h, guardScan, guardStep, isCleared, isRun, isRunOk, isStopOk,
          isWaitOk, h2, hp]
  · rw [stop_fail_stop o s hp hq h1]
    rcases h with h | ⟨h, _⟩
    · left
      simp [guardScan_after _ _ _ h, guardScan, guardStep, isCleared, isRun, isRunOk]
    · right
      simp [guardScan_after _ _ _ h, guardScan, guardStep, isCleared, isRun, isRunOk, isStopOk, h1, hp]

theorem guarded_start_idle (o : Oracle) (u : String) (s : State) (h : Guarded s)
    (hp : s.audio_playing = false) (hq : s.pipeline = true)
    (hr : s.http_stream_reader = true) :
    Guarded (start_audio_for_url o (some u) s).2 := by
  have hc := guarded_of_not_playing s h hp
  by_cases h1 : o s.log.length = ESP_OK
  · by_cases h2 : o (s.log.length + 1) = ESP_OK
    · rw [start_idle_done o u s hp hq hr h1 h2]
      right
      simp [guardScan_after _ _ _ hc, guardScan, guardStep, isCleared, isRun, isRunOk]
    · rw [start_idle_fail_run o u s hp hq hr h1 h2]
      left
      simp [guardScan_after _ _ _ hc, guardScan, guardStep, isCleared, isRun, isRunOk, h2]
  · rw [start_idle_fail_uri o u s hp hq hr h1]
    left
    simp [guardScan_after _ _ _ hc, guardScan, guardStep, isCleared, isRun, isRunOk]

theorem guarded_start (o : Oracle) (url : Option String) (s : State) (h : Guarded s) :
    Guarded (start_audio_for_url o url s).2 := by
  cases url with
  | none => rw [start_invalid o none s (Or.inl rfl)]; exact h
  | some u =>
    rcases Bool.eq_false_or_eq_true s.pipeline with hq | hq
    swap
    · rw [start_invalid o (some u) s (Or.inr (Or.inl hq))]; exact h
    rcases Bool.eq_false_or_eq_true s.http_stream_reader with hr | hr
    swap
    · rw [start_invalid o (some u) s (Or.inr (Or.inr hr))]; exact h
    rcases Bool.eq_false_or_eq_true s.audio_playing with hp | hp
    swap
    · exact guarded_start_idle o u s h hp hq hr
    have hstop := guarded_stop o s h
    by_cases h1 : o s.log.length = ESP_OK
    · by_cases h2 : o (s.log.length + 1) = ESP_OK
      · rw [start_playing_stop_done o u s hp hq hr h1 h2]
        rw [stop_done o s hp hq h1 h2] at hstop
        exact guarded_start_idle o u (stoppedState o s) hstop rfl hq hr
      · rw [start_playing_stop_failed o u s hp hq hr
          (by rw [stop_fail_wait o s hp hq h1 h2]; exact h2)]
        exact hstop
    · rw [start_playing_stop_failed o u s hp hq hr
        (by rw [stop_fail_stop o s hp hq h1]; exact h1)]
      exact hstop

theorem guarded_handle (K : PiccStates) (o : Oracle) (s : State) (ev : Event)
    (h : Guarded s) : Guarded (handle K o s ev) := by
  cases ev with
  | picc event =>
    simp only [handle, on_picc_state_changed]
    split
    · split
      · exact guarded_start o _ s h
      · exact h
    · split
      · exact guarded_stop o s h
      · exact h
  | listen ret msg =>
    simp only [handle, main_loop_iteration]
    split
    · split
      · rcases h with h | ⟨h, hp⟩
        · left
          simp [invoke, guardScan_after _ _ _ h, guardScan, guardStep, isCleared, isRun, isRunOk]
        · right
          simp [invoke, guardScan_after _ _ _ h, guardScan, guardStep, isCleared, isRun, isRunOk,
            isStopOk, hp]
      · split
        · left
          rcases h with h | ⟨h, _⟩ <;>
            simp [guardScan_after _ _ _ h, guardScan, guardStep, isCleared, isRunOk]
        · split
          · left
            rcases h with h | ⟨h, _⟩ <;>
              simp [guardScan_after _ _ _ h, guardScan, guardStep, isCleared, isRunOk]
          · exact h
    · exact h

theorem guarded_run (K : PiccStates) (o : Oracle) (events : List Event) (s : State)
    (h : Guarded s) : Guarded (run K o s events) := by
  induction events generalizing s with
  | nil => exact h
  | cons ev events ih =>
    rw [run_cons]
    exact ih _ (guarded_handle K o s ev h)

theorem guardScan_split (g0 g : Guard) (a b : List LogEntry)
    (h : guardScan g0 (a ++ b) = some g) :
    ∃ g1, guardScan g0 a = some g1 ∧ guardScan g1 b = some g := by
  rw [guardScan_append] at h
  cases ha : guardScan g0 a with
  | none => rw [ha] at h; cases h
  | some g1 => rw [ha] at h; exact ⟨g1, rfl, h⟩

theorem guardScan_reaches_clear (mid : List LogEntry) :
    (guardScan Guard.armed mid = some Guard.clear →
        completedStopIn mid = true ∨ stateClearedIn mid = true)
    ∧ (guardScan Guard.stopping mid = some Guard.clear →
        startsWithWaitOk mid = true ∨ completedStopIn mid = true
          ∨ stateClearedIn mid = true) := by
  induction mid with
  | nil => simp [guardScan]
  | cons e rest ih =>
    obtain ⟨ih1, ih2⟩ := ih
    constructor
    · intro h
      simp only [guardScan, guardStep] at h
      cases hc : isCleared e
      · cases hr : isRun e
        · cases hs : isStopOk e
          · simp only [hc, hr, hs, Bool.false_eq_true, if_false] at h
            rcases ih1 h with h' | h'
            · left; simp [completedStopIn, h']
            · right; simp [stateClearedIn, List.any_cons] at h' ⊢; exact Or.inr h'
          · simp only [hc, hr, hs, Bool.false_eq_true, if_false, if_true] at h
            rcases ih2 h with h' | h' | h'
            · left; simp [completedStopIn, hs, h']
            · left; simp [completedStopIn, h']
            · right; simp [stateClearedIn, List.any_cons] at h' ⊢; exact Or.inr h'
        · simp [hc, hr] at h
      · right; simp [stateClearedIn, List.any_cons, hc]
    · intro h
      simp only [guardScan, guardStep] at h
      cases hc : isCleared e
      · cases hr : isRun e
        · cases hw : isWaitOk e
          · cases hs : isStopOk e
            · simp only [hc, hr, hs, hw, Bool.false_eq_true, if_false] at h
              rcases ih1 h with h' | h'
              · right; left; simp [completedStopIn, h']
              · right; right; simp [stateClearedIn, List.any_cons] at h' ⊢; exact Or.inr h'
            · simp only [hc, hr, hs, hw, Bool.false_eq_true, if_false, if_true] at h
              rcases ih2 h with h' | h' | h'
              · right; left; simp [completedStopIn, hs, h']
              · right; left; simp [completedStopIn, h']
              · right; right; simp [stateClearedIn, List.any_cons] at h' ⊢; exact Or.inr h'
          · left; simp [startsWithWaitOk, hw]
        · simp [hc, hr] at h
      · right; right; simp [stateClearedIn, List.any_cons, hc]

theorem stop_between_runs_of_scan (pre mid post : List LogEntry) (r : esp_err_t) (g : Guard)
    (h : guardScan Guard.clear
          (pre ++ (LogEntry.call PipelineCall.audio_pipeline_run ESP_OK
            :: (mid ++ (LogEntry.call PipelineCall.audio_pipeline_run r :: post)))) = some g) :
    completedStopIn mid = true ∨ stateClearedIn mid = true := by
  obtain ⟨g1, _, h1⟩ := guardScan_split _ _ _ _ h
  simp only [guardScan] at h1
  have harmed : guardScan Guard.armed
      (mid ++ LogEntry.call PipelineCall.audio_pipeline_run r :: post) = some g := by
    cases g1 <;> simp [guardStep, isCleared, isRun, isRunOk] at h1
    exact h1
  obtain ⟨g2, h2, h3⟩ := guardScan_split _ _ _ _ harmed
  simp only [guardScan] at h3
  cases g2 with
  | clear => exact (guardScan_reaches_clear mid).1 h2
  | armed => simp [guardStep, isCleared, isRun] at h3
  | stopping => simp [guardStep, isCleared, isRun] at h3

/-- Claim C3, as the code has it: from start-up, whatever events the
controller handles (card events and loop iterations, in any order) and
whatever the framework calls return, whenever the record holds a successful
`audio_pipeline_run` and a later `audio_pipeline_run`, the entries between
the two hold a completed stop (a successful `audio_pipeline_stop` directly
followed by a successful `audio_pipeline_wait_for_stop`) or a place where a
status message of the pipeline cleared the playback state. -/
theorem C3_no_second_run_while_playing (K : PiccStates) (o : Oracle)
    (pipeline http_stream_reader : Bool) (events : List Event)
    (pre mid post : List LogEntry) (r : esp_err_t)
    (hlog : (run K o (initial_state pipeline http_stream_reader) events).log
        = pre ++ (LogEntry.call PipelineCall.audio_pipeline_run ESP_OK
            :: (mid ++ (LogEntry.call PipelineCall.audio_pipeline_run r :: post)))) :
    completedStopIn mid = true ∨ stateClearedIn mid = true := by
  have hinit : Guarded (initial_state pipeline http_stream_reader) := Or.inl rfl
  have hfin := guarded_run K o events _ hinit
  rw [Guarded, hlog] at hfin
  rcases hfin with hfin | ⟨hfin, _⟩
  · exact stop_between_runs_of_scan pre mid post r _ hfin
  · exact stop_between_runs_of_scan pre mid post r _ hfin

/-- Instance of C3: two table cards are presented one after the other; between
the two runs the record holds the completed stop. -/
theorem C3_no_second_run_while_playing_witness :
    completedStopIn
        [LogEntry.call PipelineCall.audio_pipeline_stop ESP_OK,
         LogEntry.call PipelineCall.audio_pipeline_wait_for_stop ESP_OK,
         LogEntry.call PipelineCall.audio_pipeline_reset_ringbuffer ESP_OK,
         LogEntry.call (PipelineCall.audio_element_set_uri url_Krishna) ESP_OK] = true
    ∨ stateClearedIn
        [LogEntry.call PipelineCall.audio_pipeline_stop ESP_OK,
         LogEntry.call PipelineCall.audio_pipeline_wait_for_stop ESP_OK,
         LogEntry.call PipelineCall.audio_pipeline_reset_ringbuffer ESP_OK,
         LogEntry.call (PipelineCall.audio_element_set_uri url_Krishna) ESP_OK] = true :=
  C3_no_second_run_while_playing piccStates allOk true true
    [Event.picc (presented piccStates uid_LC), Event.picc (presented piccStates uid_Krishna)]
    [LogEntry.call (PipelineCall.audio_element_set_uri url_LC) ESP_OK] _ [] ESP_OK
    (by decide)

/-- Counterexample to claim C3 as stated: the first table card is presented,
the output stage reports Finished, and the card is presented again, every call
succeeding. The recorded framework calls are `set_uri`, `run`, `set_uri`,
`run`: two `audio_pipeline_run` calls with no `audio_pipeline_stop` and no
`audio_pipeline_wait_for_stop` between them. -/
theorem C3_counterexample_restart_after_finished :
    pipelineCalls (run piccStates allOk (initial_state true true)
        [Event.picc (presented piccStates uid_LC),
         Event.listen ESP_OK (statusMsg msg_source_t.i2s_stream_writer
            audio_element_status_t.AEL_STATUS_STATE_FINISHED),
         Event.picc (presented piccStates uid_LC)]).log
      = [(PipelineCall.audio_element_set_uri url_LC, ESP_OK),
         (PipelineCall.audio_pipeline_run, ESP_OK),
         (PipelineCall.audio_element_set_uri url_LC, ESP_OK),
         (PipelineCall.audio_pipeline_run, ESP_OK)]
    ∧ completedStopIn [LogEntry.playback_finished,
         LogEntry.call (PipelineCall.audio_element_set_uri url_LC) ESP_OK] = false := by
  refine ⟨?_, ?_⟩ <;> decide

/-! ## The playback state is always Idle or Playing -/

theorem wellDefined_stop (o : Oracle) (s : State) (h : WellDefined s) :
    WellDefined (stop_current_audio o s).2 := by
  rcases Bool.eq_false_or_eq_true s.audio_playing with hp | hp
  swap
  · rw [stop_noop o s (Or.inl hp)]; exact h
  rcases Bool.eq_false_or_eq_true s.pipeline with hq | hq
  swap
  · rw [stop_noop o s (Or.inr hq)]; exact h
  by_cases h1 : o s.log.length = ESP_OK
  · by_cases h2 : o (s.log.length + 1) = ESP_OK
    · rw [stop_done o s hp hq h1 h2]
      simp [WellDefined, stoppedState]
    · rw [stop_fail_wait o s hp hq h1 h2]
      exact h
  · rw [stop_fail_stop o s hp hq h1]
    exact h

theorem wellDefined_start_idle (o : Oracle) (u : String) (s : State) (h : WellDefined s)
    (hp : s.audio_playing = false) (hq : s.pipeline = true)
    (hr : s.http_stream_reader = true) :
    WellDefined (start_audio_for_url o (some u) s).2 := by
  by_cases h1 : o s.log.length = ESP_OK
  · by_cases h2 : o (s.log.length + 1) = ESP_OK
    · rw [start_idle_done o u s hp hq hr h1 h2]
      simp [WellDefined]
    · rw [start_idle_fail_run o u s hp hq hr h1 h2]
      exact h
  · rw [start_idle_fail_uri o u s hp hq hr h1]
    exact h

theorem wellDefined_start (o : Oracle) (url : Option String) (s : State)
    (h : WellDefined s) : WellDefined (start_audio_for_url o url s).2 := by
  cases url with
  | none => rw [start_invalid o none s (Or.inl rfl)]; exact h
  | some u =>
    rcases Bool.eq_false_or_eq_true s.pipeline with hq | hq
    swap
    · rw [start_invalid o (some u) s (Or.inr (Or.inl hq))]; exact h
    rcases Bool.eq_false_or_eq_true s.http_stream_reader with hr | hr
    swap
    · rw [start_invalid o (some u) s (Or.inr (Or.inr hr))]; exact h
    rcases Bool.eq_false_or_eq_true s.audio_playing with hp | hp
    swap
    · exact wellDefined_start_idle o u s h hp hq hr
    have hstop := wellDefined_stop o s h
    by_cases h1 : o s.log.length = ESP_OK
    · by_cases h2 : o (s.log.length + 1) = ESP_OK
      · rw [start_playing_stop_done o u s hp hq hr h1 h2]
        rw [stop_done o s hp hq h1 h2] at hstop
        exact wellDefined_start_idle o u (stoppedState o s) hstop rfl hq hr
      · rw [start_playing_stop_failed o u s hp hq hr
          (by rw [stop_fail_wait o s hp hq h1 h2]; exact h2)]
        exact hstop
    · rw [start_playing_stop_failed o u s hp hq hr
        (by rw [stop_fail_stop o s hp hq h1]; exact h1)]
      exact hstop

theorem wellDefined_handle (K : PiccStates) (o : Oracle) (s : State) (ev : Event)
    (h : WellDefined s) : WellDefined (handle K o s ev) := by
  cases ev with
  | picc event =>
    simp only [handle, on_picc_state_changed]
    split
    · split
      · exact wellDefined_start o _ s h
      · exact h
    · split
      · exact wellDefined_stop o s h
      · exact h
  | listen ret msg =>
    simp only [handle, main_loop_iteration]
    split
    · split
      · exact h
      · split
        · simp [WellDefined]
        · split
          · simp [WellDefined]
          · exact h
    · exact h

theorem wellDefined_run (K : PiccStates) (o : Oracle) (events : List Event) (s : State)
    (h : WellDefined s) : WellDefined (run K o s events) := by
  induction events generalizing s with
  | nil => exact h
  | cons ev events ih =>
    rw [run_cons]
    exact ih _ (wellDefined_handle K o s ev h)

/-- Claim C13: from the initial state (`audio_playing = false`,
`current_playing_url = NULL`), whatever card events and loop iterations are
handled and whatever the framework calls return, after each handled event
(after every prefix of the sequence) `audio_playing` is true if and only if
`current_playing_url` is not NULL: the state is Idle or `Playing(url)`. -/
theorem C13_state_always_idle_or_playing (K : PiccStates) (o : Oracle)
    (pipeline http_stream_reader : Bool) (events : List Event) (n : Nat) :
    ((run K o (initial_state pipeline http_stream_reader) (events.take n)).audio_playing = true
      ↔ (run K o (initial_state pipeline http_stream_reader)
            (events.take n)).current_playing_url ≠ none)
    ∧ ((run K o (initial_state pipeline http_stream_reader) (events.take n)).isIdle
        ∨ ∃ url, (run K o (initial_state pipeline http_stream_reader)
                    (events.take n)).isPlaying url) := by
  have hinit : WellDefined (initial_state pipeline http_stream_reader) := by
    simp [WellDefined, initial_state]
  have hfin := wellDefined_run K o (events.take n) _ hinit
  refine ⟨hfin, ?_⟩
  unfold WellDefined at hfin
  rcases Bool.eq_false_or_eq_true
    (run K o (initial_state pipeline http_stream_reader) (events.take n)).audio_playing
    with hp | hp
  · right
    obtain ⟨url, hurl⟩ := Option.ne_none_iff_exists'.1 (hfin.1 hp)
    exact ⟨url, hp, hurl⟩
  · left
    refine ⟨hp, ?_⟩
    by_contra hne
    have := hfin.2 hne
    rw [hp] at this
    cases this

/-! ## The start commands are issued with `audio_playing` cleared -/

theorem pipelineCalls_append (a b : List LogEntry) :
    pipelineCalls (a ++ b) = pipelineCalls a ++ pipelineCalls b := by
  simp [pipelineCalls, List.filterMap_append]

theorem stop_moments_calls (o : Oracle) (s : State) :
    (pipelineCalls (stop_current_audio o s).2.log).map Prod.fst
        = (pipelineCalls s.log).map Prod.fst
            ++ (stop_current_audio_moments o s).map Prod.fst
    ∧ ∀ c b, (c, b) ∈ stop_current_audio_moments o s → isStartCommand c = false := by
  rcases Bool.eq_false_or_eq_true s.audio_playing with hp | hp
  swap
  · simp [stop_noop o s (Or.inl hp), stop_current_audio_moments, hp]
  rcases Bool.eq_false_or_eq_true s.pipeline with hq | hq
  swap
  · simp [stop_noop o s (Or.inr hq), stop_current_audio_moments, hq]
  by_cases h1 : o s.log.length = ESP_OK
  · by_cases h2 : o (s.log.length + 1) = ESP_OK
    · rw [stop_done o s hp hq h1 h2]
      constructor
      · simp [stop_current_audio_moments, stoppedState, hp, hq, invoke, h1, h2,
          pipelineCalls_append, pipelineCalls]
      · intro c b hmem
        simp [stop_current_audio_moments, hp, hq, invoke, h1, h2] at hmem
        rcases hmem with h | h | h <;> simp [h.1, isStartCommand]
    · rw [stop_fail_wait o s hp hq h1 h2]
      constructor
      · simp [stop_current_audio_moments, hp, hq, invoke, h1, h2,
          pipelineCalls_append, pipelineCalls]
      · intro c b hmem
        simp [stop_current_audio_moments, hp, hq, invoke, h1, h2] at hmem
        rcases hmem with h | h <;> simp [h.1, isStartCommand]
  · rw [stop_fail_stop o s hp hq h1]
    constructor
    · simp [stop_current_audio_moments, hp, hq, invoke, h1,
        pipelineCalls_append, pipelineCalls]
    · intro c b hmem
      simp [stop_current_audio_moments, hp, hq, invoke, h1] at hmem
      simp [hmem.1, isStartCommand]

theorem start_moments_idle (o : Oracle) (u : String) (s : State)
    (hp : s.audio_playing = false) (hq : s.pipeline = true)
    (hr : s.http_stream_reader = true) :
    (pipelineCalls (start_audio_for_url o (some u) s).2.log).map Prod.fst
        = (pipelineCalls s.log).map Prod.fst
            ++ (start_audio_for_url_moments o (some u) s).map Prod.fst
    ∧ ∀ c b, (c, b) ∈ start_audio_for_url_moments o (some u) s → b = false := by
  by_cases h1 : o s.log.length = ESP_OK
  · by_cases h2 : o (s.log.length + 1) = ESP_OK
    · rw [start_idle_done o u s hp hq hr h1 h2]
      constructor
      · simp [start_audio_for_url_moments, hp, hq, hr, invoke, h1, h2,
          pipelineCalls_append, pipelineCalls]
      · intro c b hmem
        simp [start_audio_for_url_moments, hp, hq, hr, invoke, h1, h2] at hmem
        rcases hmem with h | h <;> exact h.2
    · rw [start_idle_fail_run o u s hp hq hr h1 h2]
      constructor
      · simp [start_audio_for_url_moments, hp, hq, hr, invoke, h1, h2,
          pipelineCalls_append, pipelineCalls]
      · intro c b hmem
        simp [start_audio_for_url_moments, hp, hq, hr, invoke, h1, h2] at hmem
        rcases hmem with h | h <;> exact h.2
  · rw [start_idle_fail_uri o u s hp hq hr h1]
    constructor
    · simp [start_audio_for_url_moments, hp, hq, hr, invoke, h1,
        pipelineCalls_append, pipelineCalls]
    · intro c b hmem
      simp [start_audio_for_url_moments, hp, hq, hr, invoke, h1] at hmem
      exact hmem.2

theorem start_moments_playing_done (o : Oracle) (u : String) (s : State)
    (hp : s.audio_playing = true) (hq : s.pipeline = true)
    (hr : s.http_stream_reader = true) (h1 : o s.log.length = ESP_OK)
    (h2 : o (s.log.length + 1) = ESP_OK) :
    start_audio_for_url_moments o (some u) s
      = stop_current_audio_moments o s
          ++ start_audio_for_url_moments o (some u) (stoppedState o s) := by
  simp [start_audio_for_url_moments, hp, hq, hr, stop_done o s hp hq h1 h2, stoppedState]

theorem start_moments_playing_failed (o : Oracle) (u : String) (s : State)
    (hp : s.audio_playing = true) (hq : s.pipeline = true)
    (hr : s.http_stream_reader = true) (h : (stop_current_audio o s).1 ≠ ESP_OK) :
    start_audio_for_url_moments o (some u) s = stop_current_audio_moments o s := by
  simp [start_audio_for_url_moments, hp, hq, hr, h]

theorem start_moments_outcome (o : Oracle) (url : Option String) (s : State) :
    (pipelineCalls (start_audio_for_url o url s).2.log).map Prod.fst
        = (pipelineCalls s.log).map Prod.fst
            ++ (start_audio_for_url_moments o url s).map Prod.fst
    ∧ ∀ c b, (c, b) ∈ start_audio_for_url_moments o url s →
        isStartCommand c = true → b = false := by
  cases url with
  | none => simp [start_invalid, start_audio_for_url_moments]
  | some u =>
    rcases Bool.eq_false_or_eq_true s.pipeline with hq | hq
    swap
    · simp [start_invalid o (some u) s (Or.inr (Or.inl hq)), start_audio_for_url_moments, hq]
    rcases Bool.eq_false_or_eq_true s.http_stream_reader with hr | hr
    swap
    · simp [start_invalid o (some u) s (Or.inr (Or.inr hr)), start_audio_for_url_moments, hr]
    rcases Bool.eq_false_or_eq_true s.audio_playing with hp | hp
    swap
    · have h := start_moments_idle o u s hp hq hr
      exact ⟨h.1, fun c b hmem _ => h.2 c b hmem⟩
    have hstop := stop_moments_calls o s
    by_cases h1 : o s.log.length = ESP_OK
    · by_cases h2 : o (s.log.length + 1) = ESP_OK
      · have hidle := start_moments_idle o u (stoppedState o s) rfl hq hr
        rw [start_playing_stop_done o u s hp hq hr h1 h2,
          start_moments_playing_done o u s hp hq hr h1 h2]
        rw [stop_done o s hp hq h1 h2] at hstop
        constructor
        · rw [hidle.1, hstop.1, List.map_append, List.append_assoc]
        · intro c b hmem hc
          rcases List.mem_append.1 hmem with hm | hm
          · rw [hstop.2 c b hm] at hc; cases hc
          · exact hidle.2 c b hm
      · have hfail : (stop_current_audio o s).1 ≠ ESP_OK := by
          rw [stop_fail_wait o s hp hq h1 h2]; exact h2
        rw [start_playing_stop_failed o u s hp hq hr hfail,
          start_moments_playing_failed o u s hp hq hr hfail]
        refine ⟨hstop.1, ?_⟩
        intro c b hmem hc
        rw [hstop.2 c b hmem] at hc; cases hc
    · have hfail : (stop_current_audio o s).1 ≠ ESP_OK := by
        rw [stop_fail_stop o s hp hq h1]; exact h1
      rw [start_playing_stop_failed o u s hp hq hr hfail,
        start_moments_playing_failed o u s hp hq hr hfail]
      refine ⟨hstop.1, ?_⟩
      intro c b hmem hc
      rw [hstop.2 c b hmem] at hc; cases hc

/-- Claim C12: for every prior state, url and results of the framework calls,
every start command that `start_audio_for_url` issues
(`audio_element_set_uri` or `audio_pipeline_run`) is issued at a moment when
`audio_playing` is false; the calls paired with these moments are, in order,
exactly the calls that `start_audio_for_url` adds to the record. -/
theorem C12_start_commands_with_audio_playing_false (o : Oracle) (url : Option String)
    (s : State) (c : PipelineCall) (b : Bool)
    (hmem : (c, b) ∈ start_audio_for_url_moments o url s)
    (hc : c = PipelineCall.audio_pipeline_run ∨ ∃ u, c = PipelineCall.audio_element_set_uri u) :
    b = false
    ∧ (pipelineCalls (start_audio_for_url o url s).2.log).map Prod.fst
        = (pipelineCalls s.log).map Prod.fst
            ++ (start_audio_for_url_moments o url s).map Prod.fst := by
  have h := start_moments_outcome o url s
  refine ⟨h.2 c b hmem ?_, h.1⟩
  rcases hc with hc | ⟨u, hc⟩ <;> rw [hc] <;> rfl

/-- Instance of C12: a second table card is presented while the first is
playing; the stop calls are made with `audio_playing` set, the two start
commands with `audio_playing` cleared. -/
theorem C12_start_commands_with_audio_playing_false_witness :
    start_audio_for_url_moments allOk (some url_Krishna) playing_LC
      = [(PipelineCall.audio_pipeline_stop, true),
         (PipelineCall.audio_pipeline_wait_for_stop, true),
         (PipelineCall.audio_pipeline_reset_ringbuffer, true),
         (PipelineCall.audio_element_set_uri url_Krishna, false),
         (PipelineCall.audio_pipeline_run, false)]
    ∧ (pipelineCalls (start_audio_for_url allOk (some url_Krishna) playing_LC).2.log).map
          Prod.fst
        = (pipelineCalls playing_LC.log).map Prod.fst
            ++ (start_audio_for_url_moments allOk (some url_Krishna) playing_LC).map
                Prod.fst :=
  ⟨by decide,
   (C12_start_commands_with_audio_playing_false allOk (some url_Krishna) playing_LC
      PipelineCall.audio_pipeline_run false (by decide) (Or.inl rfl)).2⟩

/-! ## Which code writes the playback state -/

theorem main_loop_never_sets_playing (o : Oracle) (ret : esp_err_t)
    (msg : audio_event_iface_msg_t) (t : State)
    (h : (main_loop_iteration o ret msg t).audio_playing = true) :
    t.audio_playing = true
    ∧ (main_loop_iteration o ret msg t).current_playing_url = t.current_playing_url := by
  unfold main_loop_iteration at h ⊢
  split at h
  · split at h
    · rename_i h1 h2
      simp only [h1, h2, and_self, if_true]
      exact ⟨h, rfl⟩
    · split at h
      · cases h
      · split at h
        · cases h
        · rename_i h1 h2 h3 h4
          simp only [h1, h2, h3, h4, if_true, if_false]
          exact ⟨h, trivial⟩
  · rename_i h1
    simp only [h1, if_false]
    exact ⟨h, trivial⟩

/-- Claim C11, as the code has it: the card-state callback
`on_picc_state_changed` writes the playback state itself, on whatever thread
runs it. Handling a Presented card with a mapping in a state with
`audio_playing` clear, the handles created and `set_uri` and `run` succeeding,
the callback alone leaves `Playing(url)`; handling a Removed event in a state
with `audio_playing` set it alone leaves Idle when the stop and the wait
succeed; what it does depends on `audio_playing` (a Removed event makes no
call when it is clear). An iteration of the main loop never sets
`audio_playing`: it only clears the playback state or leaves it as it is. -/
theorem C11_callback_writes_playback_state (K : PiccStates) (o : Oracle) (s : State)
    (event : rc522_picc_state_changed_event_t) (url : String)
    (hq : s.pipeline = true) (hr : s.http_stream_reader = true)
    (hp : s.audio_playing = false)
    (h1 : o s.log.length = ESP_OK) (h2 : o (s.log.length + 1) = ESP_OK)
    (he : event.picc.state = K.RC522_PICC_STATE_ACTIVE)
    (hu : find_url_for_uid event.picc.uid = some url) :
    (on_picc_state_changed K o event s).isPlaying url
    ∧ (∀ (t : State) (event2 : rc522_picc_state_changed_event_t),
        isRemoved K event2 → t.audio_playing = true → t.pipeline = true →
        o t.log.length = ESP_OK → o (t.log.length + 1) = ESP_OK →
        (on_picc_state_changed K o event2 t).isIdle)
    ∧ (∀ (t : State) (event2 : rc522_picc_state_changed_event_t),
        isRemoved K event2 → t.audio_playing = false →
        on_picc_state_changed K o event2 t = t)
    ∧ (∀ (ret : esp_err_t) (msg : audio_event_iface_msg_t) (t : State),
        (main_loop_iteration o ret msg t).audio_playing = true →
        t.audio_playing = true
        ∧ (main_loop_iteration o ret msg t).current_playing_url
            = t.current_playing_url) := by
  refine ⟨?_, ?_, ?_, fun ret msg t h => main_loop_never_sets_playing o ret msg t h⟩
  · have hstep : on_picc_state_changed K o event s
        = (start_audio_for_url o (some url) s).2 := by
      simp [on_picc_state_changed, he, hu]
    rw [hstep, start_idle_done o url s hp hq hr h1 h2]
    exact ⟨rfl, rfl⟩
  · intro t event2 hrem htp htq ht1 ht2
    have hstep : on_picc_state_changed K o event2 t = (stop_current_audio o t).2 := by
      simp [on_picc_state_changed, hrem.1, hrem.2, K.distinct]
    rw [hstep, stop_done o t htp htq ht1 ht2]
    exact ⟨rfl, rfl⟩
  · intro t event2 hrem htp
    have hstep : on_picc_state_changed K o event2 t = (stop_current_audio o t).2 := by
      simp [on_picc_state_changed, hrem.1, hrem.2, K.distinct]
    rw [hstep, stop_noop o t (Or.inl htp)]

/-- Instance of C11: at start-up the callback is run for the first table
card. -/
theorem C11_callback_writes_playback_state_witness :
    (on_picc_state_changed piccStates allOk (presented piccStates uid_LC)
        (initial_state true true)).isPlaying url_LC :=
  (C11_callback_writes_playback_state piccStates allOk (initial_state true true)
    (presented piccStates uid_LC) url_LC rfl rfl rfl rfl rfl rfl (by decide)).1

/-- Counterexample to claim C11 as stated: at start-up, in the Idle state, one
run of the callback `on_picc_state_changed` for the first table card, with no
iteration of the main loop, leaves `audio_playing` set and
`current_playing_url` at the LC_intro url: the callback writes the playback
state directly. -/
theorem C11_counterexample_callback_sets_playing :
    (initial_state true true).audio_playing = false
    ∧ (initial_state true true).current_playing_url = none
    ∧ (on_picc_state_changed piccStates allOk (presented piccStates uid_LC)
        (initial_state true true)).audio_playing = true
    ∧ (on_picc_state_changed piccStates allOk (presented piccStates uid_LC)
        (initial_state true true)).current_playing_url = some url_LC := by
  refine ⟨?_, ?_, ?_, ?_⟩ <;> decide

end Cubbie
